import Mathlib

set_option maxRecDepth 8192
set_option autoImplicit false

/-!
Verification development for a video-production pipeline
(content-plan lesson store, eight-stage generation pipeline, renderer glue).

Strings are modelled as lists of characters (`Str`), so that the
character-level behaviour of the Python string operations used by the
pipeline (`str.strip`, `str.replace`, f-string interpolation of decimal
integers) can be reasoned about directly.
-/

abbrev Str := List Char

/-- Whitespace test covering the characters Python `str.strip()` removes
that can occur in the generative-service text responses. -/
def isWS (c : Char) : Bool := c = ' ' || c = '\t' || c = '\n' || c = '\r'

/-- Model of Python `str.strip()`: remove leading and trailing whitespace. -/
def pyStrip (s : Str) : Str := ((s.dropWhile isWS).reverse.dropWhile isWS).reverse

/-- Drop leading whitespace. -/
def skipWs (s : Str) : Str := s.dropWhile isWS

/-- The `\x7b` character (left curly brace). -/
def braceL : Char := Char.ofNat 123

/-- The `\x7d` character (right curly brace). -/
def braceR : Char := Char.ofNat 125

/-- Fuel-indexed worker for `replaceAll`.  Scans left to right; whenever the
pattern is a prefix of the remaining input, emits the replacement and resumes
after the matched occurrence, exactly like Python `str.replace` (all
occurrences, non-overlapping, left to right). -/
def replaceAllAux (pat rep : Str) : Nat → Str → Str
  | _, [] => []
  | 0, s => s
  | fuel+1, a :: s =>
    if pat.isPrefixOf (a :: s) then rep ++ replaceAllAux pat rep fuel ((a :: s).drop pat.length)
    else a :: replaceAllAux pat rep fuel s

/-- Model of Python `str.replace(pat, rep)` for a non-empty pattern. -/
def replaceAll (pat rep s : Str) : Str := replaceAllAux pat rep s.length s

/-- The fence-stripping transformation every text stage applies to the raw
response before parsing:
`response.text.strip().replace("```json", "").replace("```", "")`
(pipeline_enhanced.py, e.g. line 59). -/
def stripFences (s : Str) : Str :=
  replaceAll "```".data [] (replaceAll "```json".data [] (pyStrip s))

/-- A text response wrapped in enclosing code-fence markers, the optional
formatting the generative service may put around the structured object. -/
def wrapFence (c : Str) : Str := "```json".data ++ c ++ "```".data

/-! ## JSON values and a model of `json.loads`

`Json` is the value domain of the structured objects the stages exchange.
`jsonParse` is modelled from the spec: it stands in for Python
`json.loads` (the `json` standard library is an external collaborator of
this repository), restricted to the JSON fragment the pipeline exchanges:
objects, arrays, double-quoted strings with the common escapes, integers,
`true`/`false`/`null`, with insignificant whitespace, and rejecting
trailing garbage. -/

inductive Json where
  | null : Json
  | bool : Bool → Json
  | num : Int → Json
  | str : Str → Json
  | arr : List Json → Json
  | obj : List (Str × Json) → Json

/-- Decoding of a JSON string escape character. -/
def escChar? (c : Char) : Option Char :=
  if c = '"' then some '"'
  else if c = '\\' then some '\\'
  else if c = '/' then some '/'
  else if c = 'n' then some '\n'
  else if c = 't' then some '\t'
  else if c = 'r' then some '\r'
  else none

/-- String-literal body scanner: input is the text after the opening quote,
output the decoded content and the text after the closing quote. -/
def strLitAux : Nat → Str → Option (Str × Str)
  | _, [] => none
  | 0, _ => none
  | f+1, c :: s =>
    if c = '"' then some ([], s)
    else if c = '\\' then
      match s with
      | e :: s2 =>
        match escChar? e with
        | some d => (strLitAux f s2).map (fun p => (d :: p.1, p.2))
        | none => none
      | [] => none
    else (strLitAux f s).map (fun p => (c :: p.1, p.2))

/-- Decimal digit test. -/
def isDigit (c : Char) : Bool := '0' ≤ c && c ≤ '9'

/-- Value of a list of decimal digits, most significant first. -/
def digitsVal (l : Str) : Nat := l.foldl (fun a c => 10 * a + (c.toNat - 48)) 0

/-- Integer literal scanner (optional minus sign, then decimal digits). -/
def parseNum (s : Str) : Option (Int × Str) :=
  match s with
  | '-' :: rest =>
    let ds := rest.takeWhile isDigit
    if ds = [] then none else some (- Int.ofNat (digitsVal ds), rest.dropWhile isDigit)
  | _ =>
    let ds := s.takeWhile isDigit
    if ds = [] then none else some (Int.ofNat (digitsVal ds), s.dropWhile isDigit)

mutual

/-- Recursive-descent JSON value scanner (fuel-indexed). -/
def parseVal : Nat → Str → Option (Json × Str)
  | 0, _ => none
  | f+1, s =>
    match skipWs s with
    | [] => none
    | c :: rest =>
      if c = braceL then
        match skipWs rest with
        | d :: rest2 =>
          if d = braceR then some (.obj [], rest2)
          else (parseMembers f (skipWs rest)).map (fun p => (Json.obj p.1, p.2))
        | [] => none
      else if c = '[' then
        match skipWs rest with
        | d :: rest2 =>
          if d = ']' then some (.arr [], rest2)
          else (parseItems f (skipWs rest)).map (fun p => (Json.arr p.1, p.2))
        | [] => none
      else if c = '"' then
        (strLitAux (rest.length + 1) rest).map (fun p => (Json.str p.1, p.2))
      else if "true".data.isPrefixOf (c :: rest) then some (.bool true, (c :: rest).drop 4)
      else if "false".data.isPrefixOf (c :: rest) then some (.bool false, (c :: rest).drop 5)
      else if "null".data.isPrefixOf (c :: rest) then some (.null, (c :: rest).drop 4)
      else (parseNum (c :: rest)).map (fun p => (Json.num p.1, p.2))

/-- Object-member list scanner, positioned at the first member. -/
def parseMembers : Nat → Str → Option (List (Str × Json) × Str)
  | 0, _ => none
  | f+1, s =>
    match s with
    | c :: rest =>
      if c = '"' then
        match strLitAux (rest.length + 1) rest with
        | some (k, r1) =>
          match skipWs r1 with
          | ':' :: r2 =>
            match parseVal f r2 with
            | some (v, r3) =>
              match skipWs r3 with
              | ',' :: r4 => (parseMembers f (skipWs r4)).map (fun p => ((k, v) :: p.1, p.2))
              | d :: r4 => if d = braceR then some ([(k, v)], r4) else none
              | [] => none
            | none => none
          | _ => none
        | none => none
      else none
    | [] => none

/-- Array-item list scanner, positioned at the first item. -/
def parseItems : Nat → Str → Option (List Json × Str)
  | 0, _ => none
  | f+1, s =>
    match parseVal f s with
    | some (v, r1) =>
      match skipWs r1 with
      | ',' :: r2 => (parseItems f r2).map (fun p => (v :: p.1, p.2))
      | ']' :: r2 => some ([v], r2)
      | _ => none
    | none => none

end

/-- Modelled from the spec: Python `json.loads` (standard library, external
to src/) on the JSON fragment used by the pipeline.  Like `json.loads` it
accepts surrounding whitespace around one top-level value and rejects any
other trailing input. -/
def jsonParse (s : Str) : Option Json :=
  let t := pyStrip s
  match parseVal (2 * t.length + 4) t with
  | some (v, rest) => if skipWs rest = [] then some v else none
  | none => none

/-- The combined per-stage response handling: fence stripping followed by
JSON parsing (pipeline_enhanced.py lines 59, 86, 119, 151, 251). -/
def stageParse (s : Str) : Option Json := jsonParse (stripFences s)

/-- Key lookup in the association list of a JSON object. -/
def jLookup (k : Str) : List (Str × Json) → Option Json
  | [] => none
  | (k2, v) :: rest => if k2 = k then some v else jLookup k rest

/-- Python `d[k]` on a parsed value: succeeds only on objects with the key. -/
def jGet (j : Json) (k : Str) : Option Json :=
  match j with
  | .obj kvs => jLookup k kvs
  | _ => none

/-- Whether a parsed value is a JSON object (a Python `dict`). -/
def jIsObj (j : Json) : Bool :=
  match j with
  | .obj _ => true
  | _ => false

/-! ## Decimal rendering of naturals

Python f-strings render integers in decimal (used by
`f"segment_{i+1}_{self.unique_id}.mp4"`, pipeline_enhanced.py line 206). -/

/-- Fuel-indexed worker producing the decimal digits of `n` in front of
`acc`, least significant digit computed first. -/
def natDecAux : Nat → Nat → Str → Str
  | 0, _, acc => acc
  | fuel+1, n, acc =>
    let d := Char.ofNat (48 + n % 10)
    if n / 10 = 0 then d :: acc else natDecAux fuel (n / 10) (d :: acc)

/-- Decimal rendering of a natural number, as an f-string does. -/
def natToDec (n : Nat) : Str := natDecAux (n + 1) n []

/-! ## Lesson store (video_generator.py)

A lesson record of the content plan: `\x7btitle, chapter, part, status,
video_path?\x7d` (spec section 3; content_plan.json documents). -/

structure Lesson where
  title : Str
  chapter : Str
  part : Str
  status : Str
  video_path : Option Str
deriving DecidableEq, Repr

/-- `AIVideoGenerator.get_next_lesson` (video_generator.py lines 16-27):
first lesson in stored order whose status is "pending", else none. -/
def get_next_lesson : List Lesson → Option Lesson
  | [] => none
  | l :: ls => if l.status = "pending".data then some l else get_next_lesson ls

/-- Python truthiness of the optional `video_path` argument
(`if video_path:`): false for `None` and for the empty string. -/
def truthy : Option Str → Bool
  | none => false
  | some s => !s.isEmpty

/-- The in-place mutation `update_lesson_status` applies to the one matched
lesson record: set `status`, and set `video_path` when a truthy path is
given (video_generator.py lines 36-38). -/
def setLessonFields (l : Lesson) (status : Str) (vp : Option Str) : Lesson :=
  { l with status := status, video_path := if truthy vp then vp else l.video_path }

/-- `AIVideoGenerator.update_lesson_status` (video_generator.py lines
29-42) restricted to the lesson list of the document: scan in stored
order, mutate the first record whose title matches (the loop `break`s),
leave everything else alone; a missing title is a silent no-op. -/
def update_lesson_status (title status : Str) (vp : Option Str) : List Lesson → List Lesson
  | [] => []
  | l :: ls =>
    if l.title = title then setLessonFields l status vp :: ls
    else l :: update_lesson_status title status vp ls

/-- Serialization of one lesson record to the JSON document form used by
`json.dump` of the content plan (the `video_path` key is present exactly
when the record has one). -/
def lessonToJson (l : Lesson) : Json :=
  .obj ([("title".data, .str l.title), ("chapter".data, .str l.chapter),
         ("part".data, .str l.part), ("status".data, .str l.status)] ++
        (match l.video_path with
         | some p => [("video_path".data, .str p)]
         | none => []))

/-- Read a JSON string value out of an optional lookup result. -/
def jStr? : Option Json → Option Str
  | some (.str s) => some s
  | _ => none

/-- Deserialization of one lesson record from the JSON document form. -/
def lessonFromJson? (j : Json) : Option Lesson :=
  match j with
  | .obj kvs =>
    match jStr? (jLookup "title".data kvs), jStr? (jLookup "chapter".data kvs),
          jStr? (jLookup "part".data kvs), jStr? (jLookup "status".data kvs) with
    | some t, some c, some p, some s =>
      some { title := t, chapter := c, part := p, status := s,
             video_path := jStr? (jLookup "video_path".data kvs) }
    | _, _, _, _ => none
  | _ => none

/-! ## The production pipeline (pipeline_enhanced.py)

Remote-service outcomes are oracles: the text returned by each
text-generation call, whether each per-segment video generation succeeds,
whether the thumbnail generation succeeds, and whether writing the merged
video succeeds.  A stage is a function `PState → Except Err PState`;
`Except.error` models an uncaught Python exception leaving the stage. -/

/-- The metadata dictionary step 5 stores with the produced segments
(pipeline_enhanced.py lines 215-218). -/
structure AssetsMeta where
  total_segments : Nat
  generated_segments : Nat
deriving DecidableEq, Repr

/-- The assets dictionary produced by step 5: the ordered file paths of
the successfully generated video segments plus the count metadata
(pipeline_enhanced.py lines 199-218). -/
structure Assets where
  video_segments : List Str
  metadata : AssetsMeta
deriving DecidableEq, Repr

/-- Pipeline state (`self.pipeline_state`, pipeline_enhanced.py lines
22-30).  `assets = none` models the initial `\x7b\x7d` dictionary, which has no
`video_segments` key until step 5 stores one. -/
structure PState where
  concept : Option Json
  research : Option Json
  script : Option Json
  storyboard : Option Json
  assets : Option Assets
  youtube_metadata : Option Json
  thumbnail_path : Option Str
  final_video_path : Option Str

/-- Exception kinds a stage can raise: a JSON parse failure of a text
response, a missing key / wrong shape in the shared state (KeyError,
TypeError, AttributeError), or a failure while writing the merged video. -/
inductive Err where
  | parse : Err
  | lookup : Str → Err
  | render : Err
deriving DecidableEq, Repr

/-- `step_1_concept_development` (lines 39-62): parse the text response
after fence stripping, store it as the concept. -/
def step_1_concept_development (text : Str) (st : PState) : Except Err PState :=
  match stageParse text with
  | none => .error .parse
  | some j => .ok { st with concept := some j }

/-- `step_2_research_validation` (lines 64-89): the prompt interpolates
`concept["main_concept"]`, so that key must be present; then parse the
text response and store it as the research. -/
def step_2_research_validation (text : Str) (st : PState) : Except Err PState :=
  match st.concept with
  | none => .error (.lookup "concept".data)
  | some c =>
    match jGet c "main_concept".data with
    | none => .error (.lookup "main_concept".data)
    | some _ =>
      match stageParse text with
      | none => .error .parse
      | some j => .ok { st with research := some j }

/-- `step_3_script_writing` (lines 91-122): the prompt interpolates
`concept["main_concept"]` and `research["key_points_to_cover"]`; then
parse the text response and store it as the script. -/
def step_3_script_writing (text : Str) (st : PState) : Except Err PState :=
  match st.concept, st.research with
  | some c, some r =>
    match jGet c "main_concept".data, jGet r "key_points_to_cover".data with
    | some _, some _ =>
      match stageParse text with
      | none => .error .parse
      | some j => .ok { st with script := some j }
    | _, _ => .error (.lookup "main_concept,key_points_to_cover".data)
  | _, _ => .error (.lookup "concept,research".data)

/-- `step_4_storyboard_planning` (lines 124-154): the prompt interpolates
`script["segments"]`; then parse the text response and store it as the
storyboard. -/
def step_4_storyboard_planning (text : Str) (st : PState) : Except Err PState :=
  match st.script with
  | none => .error (.lookup "script".data)
  | some s =>
    match jGet s "segments".data with
    | none => .error (.lookup "segments".data)
    | some _ =>
      match stageParse text with
      | none => .error .parse
      | some j => .ok { st with storyboard := some j }

/-! ## Output paths

`self.unique_id` and the per-run output directory (pipeline_enhanced.py
lines 17-18); the current date is an oracle (`dateStr`). -/

/-- `f"\x7bdatetime.now().strftime(...)\x7d_\x7blesson_data['chapter']\x7d_\x7blesson_data['part']\x7d"`. -/
def uniqueId (dateStr : Str) (lesson : Lesson) : Str :=
  dateStr ++ "_".data ++ lesson.chapter ++ "_".data ++ lesson.part

/-- `Path(output_base_dir) / f"lesson_\x7bself.unique_id\x7d"`. -/
def outputDir (outBase uid : Str) : Str := outBase ++ "/lesson_".data ++ uid

/-- `self.output_dir / f"segment_\x7bi+1\x7d_\x7bself.unique_id\x7d.mp4"`
(pipeline_enhanced.py line 206), for loop index `i`. -/
def segmentPath (outDir uid : Str) (i : Nat) : Str :=
  outDir ++ ("/segment_".data ++ (natToDec (i + 1) ++ ("_".data ++ (uid ++ ".mp4".data))))

/-- `self.output_dir / f"final_video_\x7bself.unique_id\x7d.mp4"` (line 317). -/
def finalVideoPath (outDir uid : Str) : Str :=
  outDir ++ "/final_video_".data ++ uid ++ ".mp4".data

/-- `self.output_dir / "ai_thumbnail.png"` (line 293). -/
def thumbnailPath (outDir : Str) : Str := outDir ++ "/ai_thumbnail.png".data

/-- Whether a script segment entry supports the two f-string lookups
`segment['script']` and `segment['visual_cue']` done in the step-5 loop
body (pipeline_enhanced.py lines 208-209), which are outside the
per-segment try/except. -/
def segWellFormed (j : Json) : Bool :=
  (jGet j "script".data).isSome && (jGet j "visual_cue".data).isSome

/-- The step-5 loop (pipeline_enhanced.py lines 205-213): for each script
segment, in order, `generate_ai_video_segment` either returns the segment
path (appended to the output sequence) or, when any exception occurred
inside it, returns `None` and the segment is skipped.  `genOk i` is the
oracle for whether the i-th generation call succeeds. -/
def step5Segments (genOk : Nat → Bool) (outDir uid : Str) : Nat → List Json → List Str
  | _, [] => []
  | i, _ :: rest =>
    if genOk i then segmentPath outDir uid i :: step5Segments genOk outDir uid (i + 1) rest
    else step5Segments genOk outDir uid (i + 1) rest

/-- `step_5_asset_generation` (pipeline_enhanced.py lines 194-221): read
`script["segments"]`, run the generation loop (per-segment failures are
absorbed by `generate_ai_video_segment` returning `None`), store the
produced paths and the requested/produced counts. -/
def step_5_asset_generation (genOk : Nat → Bool) (outDir uid : Str) (st : PState) :
    Except Err PState :=
  match st.script with
  | none => .error (.lookup "script".data)
  | some s =>
    match jGet s "segments".data with
    | some (.arr items) =>
      if items.all segWellFormed then
        let paths := step5Segments genOk outDir uid 0 items
        let a : Assets :=
          { video_segments := paths,
            metadata := { total_segments := items.length,
                          generated_segments := paths.length } }
        .ok { st with assets := some a }
      else .error (.lookup "script,visual_cue".data)
    | some _ => .error (.lookup "segments:list".data)
    | none => .error (.lookup "segments".data)

/-- `step_6_youtube_metadata_generation` (pipeline_enhanced.py lines
223-254): the prompt interpolates `concept["main_concept"]`,
`[seg['script'] for seg in script['segments']]` and
`storyboard.get('visual_style', ...)`; then parse the text response. -/
def step_6_youtube_metadata_generation (text : Str) (st : PState) : Except Err PState :=
  match st.concept, st.script, st.storyboard with
  | some c, some s, some sb =>
    match jGet c "main_concept".data, jGet s "segments".data with
    | some _, some (.arr items) =>
      if items.all (fun it => (jGet it "script".data).isSome) && jIsObj sb then
        match stageParse text with
        | none => .error .parse
        | some j => .ok { st with youtube_metadata := some j }
      else .error (.lookup "segments,script".data)
    | _, _ => .error (.lookup "main_concept,segments".data)
  | _, _, _ => .error (.lookup "concept,script,storyboard".data)

/-- `step_7_thumbnail_generation` (pipeline_enhanced.py lines 256-305):
`self.pipeline_state["youtube_metadata"]` is read outside the try/except
(KeyError propagates), then the whole generation attempt is inside
try/except: on success the path is recorded, on any failure (or no image
part) the step prints and returns `None`, leaving the state unchanged.
`thumbOk` is the oracle for the generation attempt. -/
def step_7_thumbnail_generation (thumbOk : Bool) (outDir : Str) (st : PState) :
    Except Err PState :=
  match st.youtube_metadata with
  | none => .error (.lookup "youtube_metadata".data)
  | some m =>
    if jIsObj m then
      if thumbOk then .ok { st with thumbnail_path := some (thumbnailPath outDir) }
      else .ok st
    else .error (.lookup "youtube_metadata:dict".data)

/-- Resource events of the render stage: opening a per-clip decode handle
(`VideoFileClip(path)`), building the merged clip
(`concatenate_videoclips`), writing the merged file, and the `close`
calls. -/
inductive REv where
  | openClip : Str → REv
  | openMerged : REv
  | writeMerged : REv
  | closeClip : Str → REv
  | closeMerged : REv
deriving DecidableEq, Repr

/-- `step_8_video_creation` (pipeline_enhanced.py lines 307-340), with its
resource-event trace.  With a non-empty segment list the code opens every
clip, concatenates, then calls `write_videofile`; only after a successful
write does it close the clips and the merged clip (lines 320-323) — there
is no try/finally, so when the write raises (`renderOk = false`) the
exception propagates with no close call executed.  With an empty segment
list the stage prints and returns `None` without touching the state. -/
def step_8_video_creation (renderOk : Bool) (outDir uid : Str) (st : PState) :
    List REv × Except Err PState :=
  match st.assets with
  | none => ([], .error (.lookup "video_segments".data))
  | some a =>
    match a.video_segments with
    | [] => ([], .ok st)
    | segs =>
      if renderOk then
        (segs.map REv.openClip ++ [REv.openMerged, REv.writeMerged] ++
           segs.map REv.closeClip ++ [REv.closeMerged],
         .ok { st with final_video_path := some (finalVideoPath outDir uid) })
      else
        (segs.map REv.openClip ++ [REv.openMerged], .error .render)

/-- The paths of the clip handles opened during a render trace. -/
def openedClips : List REv → List Str
  | [] => []
  | .openClip p :: evs => p :: openedClips evs
  | _ :: evs => openedClips evs

/-- The paths of the clip handles closed during a render trace. -/
def closedClips : List REv → List Str
  | [] => []
  | .closeClip p :: evs => p :: closedClips evs
  | _ :: evs => closedClips evs

/-- How many merged-clip resources a render trace acquires. -/
def mergedOpens : List REv → Nat
  | [] => 0
  | .openMerged :: evs => mergedOpens evs + 1
  | _ :: evs => mergedOpens evs

/-- How many merged-clip resources a render trace releases. -/
def mergedCloses : List REv → Nat
  | [] => 0
  | .closeMerged :: evs => mergedCloses evs + 1
  | _ :: evs => mergedCloses evs

/-- Every resource acquired in the trace is released: the closed clip
handles are exactly the opened ones, and every merged clip built is
closed. -/
def allReleased (evs : List REv) : Prop :=
  closedClips evs = openedClips evs ∧ mergedCloses evs = mergedOpens evs

instance (evs : List REv) : Decidable (allReleased evs) := by
  unfold allReleased; infer_instance

/-! ## Running the pipeline -/

/-- Remote-service outcomes for one run: the current date string, the five
text responses, and the success of each video-segment generation, of the
thumbnail generation, and of writing the merged video. -/
structure Oracles where
  dateStr : Str
  conceptText : Str
  researchText : Str
  scriptText : Str
  storyboardText : Str
  metadataText : Str
  genOk : Nat → Bool
  thumbOk : Bool
  renderOk : Bool

/-- Run a list of named stages in order.  A stage raising aborts the rest:
the trace records exactly the stages entered, and the error is returned
unchanged (the `except` in `run_complete_pipeline`, lines 377-379, only
logs and re-raises). -/
def runSeq : List (Str × (PState → Except Err PState)) → PState → List Str × Except Err PState
  | [], st => ([], .ok st)
  | (n, f) :: rest, st =>
    match f st with
    | .error e => ([n], .error e)
    | .ok st2 =>
      let p := runSeq rest st2
      (n :: p.1, p.2)

/-- The eight stages of `run_complete_pipeline` (pipeline_enhanced.py
lines 342-375), in order, with their oracles applied. -/
def pipelineStages (o : Oracles) (outBase : Str) (lesson : Lesson) :
    List (Str × (PState → Except Err PState)) :=
  [("concept".data, step_1_concept_development o.conceptText),
   ("research".data, step_2_research_validation o.researchText),
   ("script".data, step_3_script_writing o.scriptText),
   ("storyboard".data, step_4_storyboard_planning o.storyboardText),
   ("assets".data, step_5_asset_generation o.genOk
      (outputDir outBase (uniqueId o.dateStr lesson)) (uniqueId o.dateStr lesson)),
   ("youtube_metadata".data, step_6_youtube_metadata_generation o.metadataText),
   ("thumbnail".data, step_7_thumbnail_generation o.thumbOk
      (outputDir outBase (uniqueId o.dateStr lesson))),
   ("final_video".data, fun st => (step_8_video_creation o.renderOk
      (outputDir outBase (uniqueId o.dateStr lesson)) (uniqueId o.dateStr lesson) st).2)]

/-- The freshly initialised pipeline state (lines 22-30). -/
def initState : PState :=
  { concept := none, research := none, script := none, storyboard := none,
    assets := none, youtube_metadata := none, thumbnail_path := none,
    final_video_path := none }

/-- `VideoProductionPipeline.run_complete_pipeline` (lines 342-379): run
the eight stages in order from the fresh state; any stage exception is
logged and re-raised. -/
def run_complete_pipeline (o : Oracles) (outBase : Str) (lesson : Lesson) :
    List Str × Except Err PState :=
  runSeq (pipelineStages o outBase lesson) initState

/-- The observable result of `AIVideoGenerator.generate_single_video`:
success message with a path, the no-output-path failure message, or the
caught-exception failure message. -/
inductive Outcome where
  | completed : Outcome
  | failedNoOutput : Outcome
  | failedError : Outcome
deriving DecidableEq, Repr

/-- `AIVideoGenerator.generate_single_video` (video_generator.py lines
44-76) for a given lesson: run the pipeline; on success with a final video
path, mark the lesson "completed" with the path and return the path; on
success without a path, report failure and return `None` leaving the plan
untouched; on an exception, mark the lesson "failed" and return `None`.
The returned triple is (console outcome, return value, content plan). -/
def generate_single_video (o : Oracles) (outBase : Str) (plan : List Lesson)
    (lesson : Lesson) : Outcome × Option Str × List Lesson :=
  match (run_complete_pipeline o outBase lesson).2 with
  | .ok st =>
    match st.final_video_path with
    | some p => (.completed, some p, update_lesson_status lesson.title "completed".data (some p) plan)
    | none => (.failedNoOutput, none, plan)
  | .error _ => (.failedError, none, update_lesson_status lesson.title "failed".data none plan)

/-! ## The video-generation polling loop

`generate_ai_video_segment` (pipeline_enhanced.py lines 176-180):

  while not operation.done:
      time.sleep(10)
      operation = client.operations.get(operation)

`done k` is the oracle for the `done` flag of the k-th fetched operation
(k = 0 is the operation returned by `generate_videos`).  The loop itself
has no bound, so it is modelled with explicit fuel: `pollAux` returns
`none` when the loop has not terminated within `fuel` iterations, and
`some (k, slept)` when the loop exits at poll index `k` having slept
`slept` seconds in total. -/
def pollAux (done : Nat → Bool) : Nat → Nat → Nat → Option (Nat × Nat)
  | 0, _, _ => none
  | fuel+1, k, slept =>
    if done k then some (k, slept) else pollAux done fuel (k + 1) (slept + 10)

/-- The polling loop started on the freshly created operation. -/
def pollLoop (done : Nat → Bool) (fuel : Nat) : Option (Nat × Nat) := pollAux done fuel 0 0


/-! ## Concrete fixtures used by witnesses and counterexamples -/

/-- Concrete completed lesson used by witnesses. -/
def lessonA : Lesson :=
  { title := "A".data, chapter := "1".data, part := "1".data,
    status := "completed".data, video_path := none }

/-- Concrete pending lesson used by witnesses. -/
def lessonB : Lesson :=
  { title := "B".data, chapter := "1".data, part := "2".data,
    status := "pending".data, video_path := none }

/-- Second concrete pending lesson used by witnesses. -/
def lessonC : Lesson :=
  { title := "C".data, chapter := "1".data, part := "3".data,
    status := "pending".data, video_path := none }

/-- Concrete content plan used by witnesses. -/
def planW : List Lesson := [lessonA, lessonB, lessonC]

/-- Concrete duplicate of the pending lesson title used by the C10 witness. -/
def lessonB2 : Lesson :=
  { title := "B".data, chapter := "2".data, part := "9".data,
    status := "pending".data, video_path := some "old.mp4".data }

/-- Concrete plan with a duplicated title used by the C10 witness. -/
def planDup : List Lesson := [lessonA, lessonB, lessonB2]

/-- Concrete script segment entry used by the C1 witness. -/
def segJW : Json := Json.obj [("script".data, .str "s".data), ("visual_cue".data, .str "v".data)]

/-- Concrete three-segment script used by the C1 witness. -/
def scriptW : Json := Json.obj [("segments".data, .arr [segJW, segJW, segJW])]

/-- Concrete pipeline state holding the three-segment script. -/
def stW : PState := { initState with script := some scriptW }

/-- Generation oracle failing on exactly the second segment. -/
def genOkW : Nat → Bool := fun j => decide (j ≠ 1)

/-- The assets record of the C3 counterexample. -/
def assetsCex : Assets :=
  { video_segments := ["a.mp4".data],
    metadata := { total_segments := 1, generated_segments := 1 } }

/-- The pipeline state of the C3 counterexample. -/
def st8cex : PState := { initState with assets := some assetsCex }

/-- Oracles for the C2 witness: every text stage parses, the script has
zero segments, so asset generation produces nothing. -/
def oracleC2 : Oracles :=
  { dateStr := "20260101".data,
    conceptText := "\x7b\"main_concept\": \"c\"\x7d".data,
    researchText := "\x7b\"key_points_to_cover\": []\x7d".data,
    scriptText := "\x7b\"segments\": []\x7d".data,
    storyboardText := "\x7b\x7d".data,
    metadataText := "\x7b\"thumbnail_text\": \"t\"\x7d".data,
    genOk := fun _ => false,
    thumbOk := true,
    renderOk := true }

/-- The empty assets record the C2 witness run produces. -/
def assetsC2 : Assets :=
  { video_segments := [], metadata := { total_segments := 0, generated_segments := 0 } }

/-- The final pipeline state of the C2 witness run. -/
def runStateC2 : PState :=
  match (run_complete_pipeline oracleC2 "output".data lessonB).2 with
  | .ok st => st
  | .error _ => initState

/-- Oracles for the C5 witness: the concept response is not valid JSON,
so stage 1 raises a parse error. -/
def oracleC5fail : Oracles :=
  { oracleC2 with conceptText := "not json at all".data }

/-- Oracles for the C5 counterexample: everything succeeds except the
thumbnail generation attempt, which raises inside the stage. -/
def oracleThumbFail : Oracles :=
  { dateStr := "20260101".data,
    conceptText := "\x7b\"main_concept\": \"c\"\x7d".data,
    researchText := "\x7b\"key_points_to_cover\": []\x7d".data,
    scriptText := "\x7b\"segments\": [\x7b\"script\": \"s\", \"visual_cue\": \"v\"\x7d]\x7d".data,
    storyboardText := "\x7b\x7d".data,
    metadataText := "\x7b\"thumbnail_text\": \"t\"\x7d".data,
    genOk := fun _ => true,
    thumbOk := false,
    renderOk := true }

/-- The final pipeline state of the C5 counterexample run. -/
def runStateThumbFail : PState :=
  match (run_complete_pipeline oracleThumbFail "output".data lessonB).2 with
  | .ok st => st
  | .error _ => initState

/-! # Part II: lemmas and claim theorems -/

/-! ## Lesson store: C8 (next pending lesson) -/

/-- Claim C8: for every content plan whose lesson list contains at least
one lesson with status "pending", `get_next_lesson` returns the first such
lesson in stored order (never a lesson with any other status); for every
plan with no pending lesson it returns none. -/
theorem C8_next_pending_first (ls : List Lesson) :
    ((∃ l ∈ ls, l.status = "pending".data) →
      ∃ i, ∃ hi : i < ls.length,
        get_next_lesson ls = some (ls.get ⟨i, hi⟩) ∧
        (ls.get ⟨i, hi⟩).status = "pending".data ∧
        ∀ j, ∀ hj : j < ls.length, j < i → (ls.get ⟨j, hj⟩).status ≠ "pending".data) ∧
    ((∀ l ∈ ls, l.status ≠ "pending".data) → get_next_lesson ls = none) := by
  induction ls with
  | nil =>
    constructor
    · rintro ⟨l, hl, _⟩
      exact absurd hl (List.not_mem_nil l)
    · intro _
      rfl
  | cons a ls ih =>
    by_cases ha : a.status = "pending".data
    · constructor
      · intro _
        refine ⟨0, Nat.succ_pos ls.length, ?_, ?_, ?_⟩
        · simp [get_next_lesson, ha]
        · simpa using ha
        · intro j hj hj0
          exact absurd hj0 (Nat.not_lt_zero j)
      · intro hall
        exact absurd ha (hall a (List.mem_cons_self a ls))
    · constructor
      · rintro ⟨l, hl, hls⟩
        rcases List.mem_cons.mp hl with rfl | hl2
        · exact absurd hls ha
        · obtain ⟨i, hi, hget, hstat, hbef⟩ := ih.1 ⟨l, hl2, hls⟩
          refine ⟨i + 1, Nat.succ_lt_succ hi, ?_, ?_, ?_⟩
          · simpa [get_next_lesson, ha] using hget
          · simpa using hstat
          · intro j hj hji
            cases j with
            | zero => simpa using ha
            | succ j =>
              have hj2 : j < ls.length := Nat.lt_of_succ_lt_succ hj
              have hji2 : j < i := Nat.lt_of_succ_lt_succ hji
              have := hbef j hj2 hji2
              simpa using this
      · intro hall
        simp only [get_next_lesson, if_neg ha]
        exact ih.2 (fun l hl => hall l (List.mem_cons_of_mem a hl))

/-- Witness for C8 at a concrete plan. -/
theorem C8_next_pending_first_witness :
    (∃ l ∈ planW, l.status = "pending".data) ∧
    (∃ i, ∃ hi : i < planW.length,
      get_next_lesson planW = some (planW.get ⟨i, hi⟩) ∧
      (planW.get ⟨i, hi⟩).status = "pending".data ∧
      ∀ j, ∀ hj : j < planW.length, j < i → (planW.get ⟨j, hj⟩).status ≠ "pending".data) :=
  ⟨by decide, (C8_next_pending_first planW).1 (by decide)⟩

/-! ## Lesson store: C6, C7, C10 (status update) -/

/-- One lesson record survives a serialize/deserialize round trip. -/
theorem lesson_roundtrip (l : Lesson) : lessonFromJson? (lessonToJson l) = some l := by
  cases l with
  | mk t c p s vp => cases vp <;> rfl

/-- The status update preserves the number of lesson records. -/
theorem update_lesson_status_length (t status : Str) (vp : Option Str) (ls : List Lesson) :
    (update_lesson_status t status vp ls).length = ls.length := by
  induction ls with
  | nil => rfl
  | cons a ls ih =>
    by_cases ha : a.title = t <;> simp [update_lesson_status, ha, ih]

/-- When `k` is the first index whose title matches, the status update is
exactly `List.set` at `k` with the mutated record. -/
theorem update_eq_set (t status : Str) (vp : Option Str) :
    ∀ (ls : List Lesson) (k : Nat) (hk : k < ls.length),
      (ls.get ⟨k, hk⟩).title = t →
      (∀ j, ∀ hj : j < ls.length, j < k → (ls.get ⟨j, hj⟩).title ≠ t) →
      update_lesson_status t status vp ls
        = ls.set k (setLessonFields (ls.get ⟨k, hk⟩) status vp)
  | [], k, hk, _, _ => absurd hk (Nat.not_lt_zero k)
  | a :: ls, 0, hk, hmatch, _ => by
    have ha : a.title = t := by simpa using hmatch
    simp [update_lesson_status, ha, List.set]
  | a :: ls, k+1, hk, hmatch, hbefore => by
    have ha : a.title ≠ t := by
      have := hbefore 0 (Nat.succ_pos _) (Nat.succ_pos _)
      simpa using this
    have ih := update_eq_set t status vp ls k (Nat.lt_of_succ_lt_succ hk)
      (by simpa using hmatch)
      (fun j hj hji => by
        have := hbefore (j + 1) (Nat.succ_lt_succ hj) (Nat.succ_lt_succ hji)
        simpa using this)
    simp [update_lesson_status, ha, List.set, ih]

/-- A first matching index exists whenever some title matches. -/
theorem exists_first_title (ls : List Lesson) (t : Str) (h : ∃ l ∈ ls, l.title = t) :
    ∃ k, ∃ hk : k < ls.length, (ls.get ⟨k, hk⟩).title = t ∧
      ∀ j, ∀ hj : j < ls.length, j < k → (ls.get ⟨j, hj⟩).title ≠ t := by
  induction ls with
  | nil =>
    obtain ⟨l, hl, _⟩ := h
    exact absurd hl (List.not_mem_nil l)
  | cons a ls ih =>
    by_cases ha : a.title = t
    · exact ⟨0, Nat.succ_pos _, by simpa using ha,
        fun j hj hj0 => absurd hj0 (Nat.not_lt_zero j)⟩
    · obtain ⟨l, hl, hlt⟩ := h
      rcases List.mem_cons.mp hl with rfl | hl2
      · exact absurd hlt ha
      · obtain ⟨k, hk, hmatch, hbef⟩ := ih ⟨l, hl2, hlt⟩
        refine ⟨k + 1, Nat.succ_lt_succ hk, by simpa using hmatch, ?_⟩
        intro j hj hji
        cases j with
        | zero => simpa using ha
        | succ j =>
          have := hbef j (Nat.lt_of_succ_lt_succ hj) (Nat.lt_of_succ_lt_succ hji)
          simpa using this

/-- Claim C6: with a known title, the status update mutates exactly the
first matching record (status, and path when one is given) and every other
record of the persisted document is unchanged, surviving a
serialize/deserialize round trip unchanged. -/
theorem C6_set_status_frame (ls : List Lesson) (t status : Str) (vp : Option Str)
    (h : ∃ l ∈ ls, l.title = t) :
    ∃ k, ∃ hk : k < ls.length,
      (ls.get ⟨k, hk⟩).title = t ∧
      (∀ j, ∀ hj : j < ls.length, j < k → (ls.get ⟨j, hj⟩).title ≠ t) ∧
      update_lesson_status t status vp ls
        = ls.set k (setLessonFields (ls.get ⟨k, hk⟩) status vp) ∧
      (∀ j, j ≠ k → (update_lesson_status t status vp ls)[j]? = ls[j]?) ∧
      (∀ l2 ∈ update_lesson_status t status vp ls,
        lessonFromJson? (lessonToJson l2) = some l2) := by
  obtain ⟨k, hk, hmatch, hbef⟩ := exists_first_title ls t h
  have hset := update_eq_set t status vp ls k hk hmatch hbef
  refine ⟨k, hk, hmatch, hbef, hset, ?_, fun l2 _ => lesson_roundtrip l2⟩
  intro j hjk
  rw [hset]
  exact List.getElem?_set_ne (fun he => hjk he.symm)

/-- Witness for C6 at a concrete plan. -/
theorem C6_set_status_frame_witness :
    (∃ l ∈ planW, l.title = "B".data) ∧
    (∃ k, ∃ hk : k < planW.length,
      (planW.get ⟨k, hk⟩).title = "B".data ∧
      (∀ j, ∀ hj : j < planW.length, j < k → (planW.get ⟨j, hj⟩).title ≠ "B".data) ∧
      update_lesson_status "B".data "completed".data (some "out.mp4".data) planW
        = planW.set k (setLessonFields (planW.get ⟨k, hk⟩) "completed".data (some "out.mp4".data)) ∧
      (∀ j, j ≠ k →
        (update_lesson_status "B".data "completed".data (some "out.mp4".data) planW)[j]?
          = planW[j]?) ∧
      (∀ l2 ∈ update_lesson_status "B".data "completed".data (some "out.mp4".data) planW,
        lessonFromJson? (lessonToJson l2) = some l2)) :=
  ⟨by decide, C6_set_status_frame planW "B".data "completed".data (some "out.mp4".data) (by decide)⟩

/-- Claim C7: with a title matching no record, the status update is a
silent no-op: it raises nothing (it is a total function) and the persisted
document is unchanged, every record surviving a serialize/deserialize
round trip unchanged. -/
theorem C7_set_status_missing_title (ls : List Lesson) (t status : Str) (vp : Option Str)
    (h : ∀ l ∈ ls, l.title ≠ t) :
    update_lesson_status t status vp ls = ls ∧
    ∀ l2 ∈ update_lesson_status t status vp ls,
      lessonFromJson? (lessonToJson l2) = some l2 := by
  refine ⟨?_, fun l2 _ => lesson_roundtrip l2⟩
  induction ls with
  | nil => rfl
  | cons a ls ih =>
    have ha : a.title ≠ t := h a (List.mem_cons_self a ls)
    simp [update_lesson_status, ha,
      ih (fun l hl => h l (List.mem_cons_of_mem a hl))]

/-- Witness for C7 at a concrete plan. -/
theorem C7_set_status_missing_title_witness :
    (∀ l ∈ planW, l.title ≠ "Z".data) ∧
    (update_lesson_status "Z".data "failed".data none planW = planW ∧
      ∀ l2 ∈ update_lesson_status "Z".data "failed".data none planW,
        lessonFromJson? (lessonToJson l2) = some l2) :=
  ⟨by decide, C7_set_status_missing_title planW "Z".data "failed".data none (by decide)⟩

/-- Claim C10: with two or more records sharing the given title, the
status update mutates only the first matching record in stored order;
every record at another index (in particular every later duplicate) is
untouched. -/
theorem C10_duplicate_title_first_only (ls : List Lesson) (t status : Str) (vp : Option Str)
    (k : Nat) (hk : k < ls.length)
    (hfirst : (ls.get ⟨k, hk⟩).title = t)
    (hbefore : ∀ j, ∀ hj : j < ls.length, j < k → (ls.get ⟨j, hj⟩).title ≠ t)
    (_hdup : ∃ j, ∃ hj : j < ls.length, k < j ∧ (ls.get ⟨j, hj⟩).title = t) :
    update_lesson_status t status vp ls
      = ls.set k (setLessonFields (ls.get ⟨k, hk⟩) status vp) ∧
    ∀ j, j ≠ k → (update_lesson_status t status vp ls)[j]? = ls[j]? := by
  have hset := update_eq_set t status vp ls k hk hfirst hbefore
  refine ⟨hset, ?_⟩
  intro j hjk
  rw [hset]
  exact List.getElem?_set_ne (fun he => hjk he.symm)

/-- Witness for C10 at a concrete plan containing a duplicated title. -/
theorem C10_duplicate_title_first_only_witness :
    (planDup.get ⟨1, by decide⟩).title = "B".data ∧
    (∀ j, ∀ hj : j < planDup.length, j < 1 → (planDup.get ⟨j, hj⟩).title ≠ "B".data) ∧
    (∃ j, ∃ hj : j < planDup.length, 1 < j ∧ (planDup.get ⟨j, hj⟩).title = "B".data) ∧
    (update_lesson_status "B".data "failed".data none planDup
      = planDup.set 1 (setLessonFields (planDup.get ⟨1, by decide⟩) "failed".data none) ∧
    ∀ j, j ≠ 1 → (update_lesson_status "B".data "failed".data none planDup)[j]? = planDup[j]?) :=
  ⟨by decide, by decide, ⟨2, by decide, by decide, by decide⟩,
    C10_duplicate_title_first_only planDup "B".data "failed".data none 1 (by decide)
      (by decide) (by decide) ⟨2, by decide, by decide, by decide⟩⟩

/-! ## C9: the video-generation polling loop -/

/-- If no fetched operation ever reports done, the loop never exits,
whatever the iteration budget. -/
theorem pollAux_none (done : Nat → Bool) (hnever : ∀ k, done k = false) :
    ∀ fuel k slept, pollAux done fuel k slept = none := by
  intro fuel
  induction fuel with
  | zero => intro k slept; rfl
  | succ fuel ih =>
    intro k slept
    simp [pollAux, hnever k, ih]

/-- The loop exits exactly at the first done poll, having slept ten more
seconds per iteration completed before it. -/
theorem pollAux_exact (done : Nat → Bool) :
    ∀ (i fuel k slept : Nat), done (k + i) = true →
      (∀ j, j < i → done (k + j) = false) → i < fuel →
      pollAux done fuel k slept = some (k + i, slept + 10 * i) := by
  intro i
  induction i with
  | zero =>
    intro fuel k slept hdone _ hfuel
    cases fuel with
    | zero => exact absurd hfuel (Nat.not_lt_zero 0)
    | succ fuel => simp [pollAux, show done k = true by simpa using hdone]
  | succ i ih =>
    intro fuel k slept hdone hbef hfuel
    cases fuel with
    | zero => exact absurd hfuel (Nat.not_lt_zero _)
    | succ fuel =>
      have h0 : done k = false := by simpa using hbef 0 (Nat.succ_pos i)
      have harith1 : k + 1 + i = k + (i + 1) := by omega
      have harith2 : slept + 10 + 10 * i = slept + 10 * (i + 1) := by ring
      have hres := ih fuel (k + 1) (slept + 10)
        (by rw [harith1]; exact hdone)
        (fun j hj => by
          have := hbef (j + 1) (Nat.succ_lt_succ hj)
          rwa [show k + (j + 1) = k + 1 + j by omega] at this)
        (Nat.lt_of_succ_lt_succ hfuel)
      rw [← harith1, ← harith2]
      simpa [pollAux, h0] using hres

/-- Claim C9: the polling loop sleeps a fixed 10 seconds between polls and
has no attempt bound or timeout: it exits exactly at the first poll whose
operation reports done (whatever the budget, as long as it reaches that
poll), and when no poll ever reports done it exits under no budget at all,
i.e. it runs forever. -/
theorem C9_poll_loop_unbounded (done : Nat → Bool) :
    ((∀ k, done k = false) → ∀ fuel, pollLoop done fuel = none) ∧
    (∀ k0, done k0 = true → (∀ j, j < k0 → done j = false) →
      ∀ fuel, k0 < fuel → pollLoop done fuel = some (k0, 10 * k0)) := by
  constructor
  · intro hnever fuel
    exact pollAux_none done hnever fuel 0 0
  · intro k0 hdone hbef fuel hfuel
    have := pollAux_exact done k0 fuel 0 0 (by simpa using hdone)
      (fun j hj => by simpa using hbef j hj) hfuel
    simpa using this

/-- Witness for C9: a never-done oracle hangs at any budget; an oracle
done at the third poll exits there with twenty seconds slept. -/
theorem C9_poll_loop_unbounded_witness :
    pollLoop (fun _ => false) 9 = none ∧
    pollLoop (fun k => decide (k = 2)) 5 = some (2, 20) :=
  ⟨(C9_poll_loop_unbounded _).1 (fun _ => rfl) 9,
    (C9_poll_loop_unbounded _).2 2 (by decide) (by decide) 5 (by decide)⟩

/-! ## C1: per-segment failure drops exactly the failed segment -/

/-- The accumulator of `natDecAux` is just appended to the digits. -/
theorem natDecAux_append : ∀ (fuel n : Nat) (acc : Str),
    natDecAux fuel n acc = natDecAux fuel n [] ++ acc := by
  intro fuel
  induction fuel with
  | zero => intro n acc; rfl
  | succ fuel ih =>
    intro n acc
    by_cases h : n / 10 = 0
    · simp [natDecAux, h]
    · simp only [natDecAux, if_neg h]
      rw [ih (n / 10) (Char.ofNat (48 + n % 10) :: acc),
          ih (n / 10) [Char.ofNat (48 + n % 10)], List.append_assoc]
      rfl

/-- Splitting the last digit off a decimal evaluation. -/
theorem digitsVal_concat (l : Str) (c : Char) :
    digitsVal (l ++ [c]) = 10 * digitsVal l + (c.toNat - 48) := by
  simp [digitsVal, List.foldl_append]

/-- Code of a rendered decimal digit. -/
theorem digitChar_toNat : ∀ d, d < 10 → (Char.ofNat (48 + d)).toNat = 48 + d := by decide

/-- The rendered decimal digits evaluate back to the rendered number. -/
theorem natDecAux_val : ∀ (fuel n : Nat), n < fuel → digitsVal (natDecAux fuel n []) = n := by
  intro fuel
  induction fuel with
  | zero => intro n h; exact absurd h (Nat.not_lt_zero n)
  | succ fuel ih =>
    intro n hn
    by_cases h : n / 10 = 0
    · have hsmall : n < 10 := (Nat.div_eq_zero_iff (by norm_num)).mp h
      have hmod : n % 10 = n := Nat.mod_eq_of_lt hsmall
      have hd := digitChar_toNat (n % 10) (Nat.mod_lt n (by norm_num))
      simp only [natDecAux, if_pos h, digitsVal, List.foldl]
      rw [hd]
      omega
    · have hpos : 0 < n := Nat.pos_of_ne_zero (fun h0 => h (by simp [h0]))
      have hlt : n / 10 < fuel := by
        have : n / 10 < n := Nat.div_lt_self hpos (by norm_num)
        omega
      simp only [natDecAux, if_neg h]
      rw [natDecAux_append fuel (n / 10) [Char.ofNat (48 + n % 10)], digitsVal_concat,
          ih (n / 10) hlt, digitChar_toNat (n % 10) (Nat.mod_lt n (by norm_num))]
      omega

/-- Decimal rendering is injective. -/
theorem natToDec_inj {m n : Nat} (h : natToDec m = natToDec n) : m = n := by
  have hm := natDecAux_val (m + 1) m (Nat.lt_succ_self m)
  have hn := natDecAux_val (n + 1) n (Nat.lt_succ_self n)
  rw [← hm, ← hn]
  unfold natToDec at h
  rw [h]

/-- Distinct loop indices give distinct segment paths. -/
theorem segmentPath_inj (outDir uid : Str) {i j : Nat}
    (h : segmentPath outDir uid i = segmentPath outDir uid j) : i = j := by
  unfold segmentPath at h
  have h2 := List.append_cancel_left (List.append_cancel_left h)

  have hlen : (natToDec (i + 1)).length = (natToDec (j + 1)).length := by
    have := congrArg List.length h2
    simp only [List.length_append] at this
    omega
  have h3 := (List.append_inj h2 hlen).1
  have := natToDec_inj h3
  omega

/-- The step-5 loop keeps, in order, the paths of exactly the indices
whose generation call succeeds. -/
theorem step5Segments_eq_filter (genOk : Nat → Bool) (outDir uid : Str) :
    ∀ (items : List Json) (k : Nat),
      step5Segments genOk outDir uid k items
        = ((List.range' k items.length).filter (fun j => genOk j)).map (segmentPath outDir uid) := by
  intro items
  induction items with
  | nil => intro k; rfl
  | cons it items ih =>
    intro k
    rw [show (it :: items).length = items.length + 1 by rfl, List.range'_succ]
    by_cases h : genOk k <;> simp [step5Segments, h, ih (k + 1)]

/-- Length of a range with one element filtered out. -/
theorem length_filter_range_ne (n i : Nat) (hi : i < n) :
    ((List.range n).filter (fun j => decide (j ≠ i))).length = n - 1 := by
  induction n with
  | zero => exact absurd hi (Nat.not_lt_zero i)
  | succ n ih =>
    rw [List.range_succ, List.filter_append, List.length_append]
    by_cases h : i = n
    · subst h
      have hall : (List.range i).filter (fun j => decide (j ≠ i)) = List.range i := by
        apply List.filter_eq_self.mpr
        intro a ha
        simp only [decide_eq_true_eq]
        exact Nat.ne_of_lt (List.mem_range.mp ha)
      have hone : (([i] : List Nat).filter (fun j => decide (j ≠ i))).length = 0 := by simp
      rw [hall, hone, List.length_range]
      omega
    · have hin : i < n := by omega
      have hkeep : (([n] : List Nat).filter (fun j => decide (j ≠ i))).length = 1 := by
        simp [show n ≠ i from fun hc => h hc.symm]
      rw [ih hin, hkeep]
      omega

/-- Claim C1: when generation fails on exactly the i-th of N script
segments, step 5 succeeds, the produced sequence is the in-order paths of
all other indices (length N-1, the i-th path excluded), and the metadata
records total_segments = N and generated_segments = N-1. -/
theorem C1_asset_generation_drops_failed (genOk : Nat → Bool) (outDir uid : Str)
    (st : PState) (s : Json) (items : List Json) (i : Nat)
    (hscript : st.script = some s)
    (hsegs : jGet s "segments".data = some (.arr items))
    (hwf : items.all segWellFormed = true)
    (hi : i < items.length)
    (hfail : ∀ j, j < items.length → (genOk j = false ↔ j = i)) :
    ∃ st2, step_5_asset_generation genOk outDir uid st = .ok st2 ∧
      ∃ a, st2.assets = some a ∧
        a.video_segments
          = ((List.range items.length).filter (fun j => decide (j ≠ i))).map
              (segmentPath outDir uid) ∧
        a.video_segments.length = items.length - 1 ∧
        segmentPath outDir uid i ∉ a.video_segments ∧
        a.metadata.total_segments = items.length ∧
        a.metadata.generated_segments = items.length - 1 := by
  have hfilter : (List.range items.length).filter (fun j => genOk j)
      = (List.range items.length).filter (fun j => decide (j ≠ i)) := by
    apply List.filter_congr
    intro j hj
    have hj2 := List.mem_range.mp hj
    by_cases hji : j = i
    · subst hji
      simp [(hfail j hj2).mpr rfl]
    · have hgt : genOk j = true := by
        cases hgb : genOk j with
        | false => exact absurd ((hfail j hj2).mp hgb) hji
        | true => rfl
      simp [hgt, hji]
  have hpaths : step5Segments genOk outDir uid 0 items
      = ((List.range items.length).filter (fun j => decide (j ≠ i))).map
          (segmentPath outDir uid) := by
    rw [step5Segments_eq_filter, ← List.range_eq_range', hfilter]
  have hlen : (step5Segments genOk outDir uid 0 items).length = items.length - 1 := by
    rw [hpaths, List.length_map, length_filter_range_ne items.length i hi]
  let aVal : Assets :=
    { video_segments := step5Segments genOk outDir uid 0 items,
      metadata := { total_segments := items.length,
                    generated_segments := (step5Segments genOk outDir uid 0 items).length } }
  refine ⟨{ st with assets := some aVal }, ?_, ?_⟩
  · simp only [step_5_asset_generation, hscript, hsegs, hwf, if_true]
  · refine ⟨_, rfl, hpaths, hlen, ?_, rfl, hlen⟩
    intro hmem
    have hmem2 : segmentPath outDir uid i ∈ step5Segments genOk outDir uid 0 items := hmem
    rw [hpaths] at hmem2
    obtain ⟨j, hjmem, hjeq⟩ := List.mem_map.mp hmem2
    have := List.mem_filter.mp hjmem
    exact absurd (segmentPath_inj outDir uid hjeq) (by simpa using this.2)

/-- Witness for C1: three segments, the second generation fails. -/
theorem C1_asset_generation_drops_failed_witness :
    (stW.script = some scriptW ∧
      jGet scriptW "segments".data = some (.arr [segJW, segJW, segJW]) ∧
      ([segJW, segJW, segJW].all segWellFormed = true) ∧
      1 < [segJW, segJW, segJW].length ∧
      (∀ j, j < [segJW, segJW, segJW].length → (genOkW j = false ↔ j = 1))) ∧
    (∃ st2, step_5_asset_generation genOkW "o".data "u".data stW = .ok st2 ∧
      ∃ a, st2.assets = some a ∧
        a.video_segments
          = ((List.range [segJW, segJW, segJW].length).filter (fun j => decide (j ≠ 1))).map
              (segmentPath "o".data "u".data) ∧
        a.video_segments.length = [segJW, segJW, segJW].length - 1 ∧
        segmentPath "o".data "u".data 1 ∉ a.video_segments ∧
        a.metadata.total_segments = [segJW, segJW, segJW].length ∧
        a.metadata.generated_segments = [segJW, segJW, segJW].length - 1) :=
  ⟨⟨rfl, rfl, rfl, by decide, by decide⟩,
    C1_asset_generation_drops_failed genOkW "o".data "u".data stW scriptW
      [segJW, segJW, segJW] 1 rfl rfl rfl (by decide) (by decide)⟩

/-! ## C3: render-stage resource release -/

/-- `openedClips` distributes over trace concatenation. -/
theorem openedClips_append (l1 l2 : List REv) :
    openedClips (l1 ++ l2) = openedClips l1 ++ openedClips l2 := by
  induction l1 with
  | nil => rfl
  | cons e l1 ih => cases e <;> simp [openedClips, ih]

/-- `closedClips` distributes over trace concatenation. -/
theorem closedClips_append (l1 l2 : List REv) :
    closedClips (l1 ++ l2) = closedClips l1 ++ closedClips l2 := by
  induction l1 with
  | nil => rfl
  | cons e l1 ih => cases e <;> simp [closedClips, ih]

/-- `mergedOpens` distributes over trace concatenation. -/
theorem mergedOpens_append (l1 l2 : List REv) :
    mergedOpens (l1 ++ l2) = mergedOpens l1 + mergedOpens l2 := by
  induction l1 with
  | nil => simp [mergedOpens]
  | cons e l1 ih => cases e <;> simp [mergedOpens, ih] <;> try omega

/-- `mergedCloses` distributes over trace concatenation. -/
theorem mergedCloses_append (l1 l2 : List REv) :
    mergedCloses (l1 ++ l2) = mergedCloses l1 + mergedCloses l2 := by
  induction l1 with
  | nil => simp [mergedCloses]
  | cons e l1 ih => cases e <;> simp [mergedCloses, ih] <;> try omega

/-- Opening-part bookkeeping: opened clips are the segment paths. -/
theorem openedClips_openMap (segs : List Str) :
    openedClips (segs.map REv.openClip) = segs := by
  induction segs with
  | nil => rfl
  | cons p ps ih => simp [openedClips, ih]

/-- Opening-part bookkeeping: no clip is closed there. -/
theorem closedClips_openMap (segs : List Str) :
    closedClips (segs.map REv.openClip) = [] := by
  induction segs with
  | nil => rfl
  | cons p ps ih => simp [closedClips, ih]

/-- Opening-part bookkeeping: no merged clip is built there. -/
theorem mergedOpens_openMap (segs : List Str) :
    mergedOpens (segs.map REv.openClip) = 0 := by
  induction segs with
  | nil => rfl
  | cons p ps ih => simp [mergedOpens, ih]

/-- Opening-part bookkeeping: no merged clip is closed there. -/
theorem mergedCloses_openMap (segs : List Str) :
    mergedCloses (segs.map REv.openClip) = 0 := by
  induction segs with
  | nil => rfl
  | cons p ps ih => simp [mergedCloses, ih]

/-- Closing-part bookkeeping: no clip is opened there. -/
theorem openedClips_closeMap (segs : List Str) :
    openedClips (segs.map REv.closeClip) = [] := by
  induction segs with
  | nil => rfl
  | cons p ps ih => simp [openedClips, ih]

/-- Closing-part bookkeeping: the closed clips are the segment paths. -/
theorem closedClips_closeMap (segs : List Str) :
    closedClips (segs.map REv.closeClip) = segs := by
  induction segs with
  | nil => rfl
  | cons p ps ih => simp [closedClips, ih]

/-- Closing-part bookkeeping: no merged clip is built there. -/
theorem mergedOpens_closeMap (segs : List Str) :
    mergedOpens (segs.map REv.closeClip) = 0 := by
  induction segs with
  | nil => rfl
  | cons p ps ih => simp [mergedOpens, ih]

/-- Closing-part bookkeeping: no merged clip is closed there. -/
theorem mergedCloses_closeMap (segs : List Str) :
    mergedCloses (segs.map REv.closeClip) = 0 := by
  induction segs with
  | nil => rfl
  | cons p ps ih => simp [mergedCloses, ih]

/-- Amended C3: on the success path every per-clip and merged resource is
released, but when writing the merged file raises, the stage propagates
the exception having released nothing: every opened clip handle and the
merged clip stay open (there is no try/finally around lines 311-323). -/
theorem C3_release_on_success_only (outDir uid : Str) (st : PState) (a : Assets)
    (ha : st.assets = some a) :
    allReleased (step_8_video_creation true outDir uid st).1 ∧
    (a.video_segments ≠ [] →
      openedClips (step_8_video_creation false outDir uid st).1 = a.video_segments ∧
      closedClips (step_8_video_creation false outDir uid st).1 = [] ∧
      mergedOpens (step_8_video_creation false outDir uid st).1 = 1 ∧
      mergedCloses (step_8_video_creation false outDir uid st).1 = 0 ∧
      (step_8_video_creation false outDir uid st).2 = .error .render) := by
  unfold step_8_video_creation
  simp only [ha]
  cases hsegs : a.video_segments with
  | nil =>
    refine ⟨⟨rfl, rfl⟩, fun hne => absurd rfl hne⟩
  | cons p ps =>
    constructor
    · refine ⟨?_, ?_⟩ <;>
        simp [allReleased, openedClips_append, closedClips_append, mergedOpens_append,
          mergedCloses_append, openedClips_openMap, closedClips_openMap,
          mergedOpens_openMap, mergedCloses_openMap, openedClips_closeMap,
          closedClips_closeMap, mergedOpens_closeMap, mergedCloses_closeMap,
          openedClips, closedClips, mergedOpens, mergedCloses]
    · intro _
      refine ⟨?_, ?_, ?_, ?_, rfl⟩ <;>
        simp [openedClips_append, closedClips_append, mergedOpens_append,
          mergedCloses_append, openedClips_openMap, closedClips_openMap,
          mergedOpens_openMap, mergedCloses_openMap,
          openedClips, closedClips, mergedOpens, mergedCloses]

/-- Counterexample to C3 as stated: with one segment and a failing write
of the merged file, the stage raises and the opened clip handle and the
merged clip are never released — releases are not guaranteed on exception
paths. -/
theorem C3_counterexample_write_failure_leaks :
    (step_8_video_creation false "o".data "u".data st8cex).2 = .error .render ∧
    ¬ allReleased (step_8_video_creation false "o".data "u".data st8cex).1 := by
  constructor
  · rfl
  · decide

/-- Witness for the amended C3 at a concrete state. -/
theorem C3_release_on_success_only_witness :
    (st8cex.assets = some assetsCex) ∧
    (allReleased (step_8_video_creation true "o".data "u".data st8cex).1 ∧
    (assetsCex.video_segments ≠ [] →
      openedClips (step_8_video_creation false "o".data "u".data st8cex).1
        = assetsCex.video_segments ∧
      closedClips (step_8_video_creation false "o".data "u".data st8cex).1 = [] ∧
      mergedOpens (step_8_video_creation false "o".data "u".data st8cex).1 = 1 ∧
      mergedCloses (step_8_video_creation false "o".data "u".data st8cex).1 = 0 ∧
      (step_8_video_creation false "o".data "u".data st8cex).2 = .error .render)) :=
  ⟨rfl, C3_release_on_success_only "o".data "u".data st8cex assetsCex rfl⟩

/-! ## Pipeline composition: C2 and C5 -/

/-- A successful run through a stage list decomposes into a successful
first stage and a successful rest. -/
theorem runSeq_cons_ok (n : Str) (f : PState → Except Err PState)
    (rest : List (Str × (PState → Except Err PState))) (st st2 : PState)
    (h : (runSeq ((n, f) :: rest) st).2 = .ok st2) :
    ∃ st1, f st = .ok st1 ∧ (runSeq rest st1).2 = .ok st2 := by
  simp only [runSeq] at h
  cases hf : f st with
  | error e => rw [hf] at h; exact Except.noConfusion h
  | ok st1 => rw [hf] at h; exact ⟨st1, rfl, h⟩

/-- The empty stage list returns the state unchanged. -/
theorem runSeq_nil_ok (st st2 : PState) (h : (runSeq [] st).2 = .ok st2) : st2 = st :=
  (Except.ok.inj h).symm

/-- Steps 1-4 and 6 (the text stages) leave `assets` and
`final_video_path` unchanged when they succeed. -/
theorem step1_frame (text : Str) (st st2 : PState)
    (h : step_1_concept_development text st = .ok st2) :
    st2.assets = st.assets ∧ st2.final_video_path = st.final_video_path := by
  unfold step_1_concept_development at h
  split at h
  · exact Except.noConfusion h
  · cases Except.ok.inj h; exact ⟨rfl, rfl⟩

/-- Frame of step 2 over `assets` and `final_video_path`. -/
theorem step2_frame (text : Str) (st st2 : PState)
    (h : step_2_research_validation text st = .ok st2) :
    st2.assets = st.assets ∧ st2.final_video_path = st.final_video_path := by
  unfold step_2_research_validation at h
  split at h
  · exact Except.noConfusion h
  · split at h
    · exact Except.noConfusion h
    · split at h
      · exact Except.noConfusion h
      · cases Except.ok.inj h; exact ⟨rfl, rfl⟩

/-- Frame of step 3 over `assets` and `final_video_path`. -/
theorem step3_frame (text : Str) (st st2 : PState)
    (h : step_3_script_writing text st = .ok st2) :
    st2.assets = st.assets ∧ st2.final_video_path = st.final_video_path := by
  unfold step_3_script_writing at h
  split at h
  · split at h
    · split at h
      · exact Except.noConfusion h
      · cases Except.ok.inj h; exact ⟨rfl, rfl⟩
    · exact Except.noConfusion h
  · exact Except.noConfusion h

/-- Frame of step 4 over `assets` and `final_video_path`. -/
theorem step4_frame (text : Str) (st st2 : PState)
    (h : step_4_storyboard_planning text st = .ok st2) :
    st2.assets = st.assets ∧ st2.final_video_path = st.final_video_path := by
  unfold step_4_storyboard_planning at h
  split at h
  · exact Except.noConfusion h
  · split at h
    · exact Except.noConfusion h
    · split at h
      · exact Except.noConfusion h
      · cases Except.ok.inj h; exact ⟨rfl, rfl⟩

/-- Frame of step 6 over `assets` and `final_video_path`. -/
theorem step6_frame (text : Str) (st st2 : PState)
    (h : step_6_youtube_metadata_generation text st = .ok st2) :
    st2.assets = st.assets ∧ st2.final_video_path = st.final_video_path := by
  unfold step_6_youtube_metadata_generation at h
  split at h
  · split at h
    · split at h
      · split at h
        · exact Except.noConfusion h
        · cases Except.ok.inj h; exact ⟨rfl, rfl⟩
      · exact Except.noConfusion h
    · exact Except.noConfusion h
  · exact Except.noConfusion h

/-- A successful step 5 leaves `final_video_path` unchanged. -/
theorem step5_fvp (genOk : Nat → Bool) (outDir uid : Str) (st st2 : PState)
    (h : step_5_asset_generation genOk outDir uid st = .ok st2) :
    st2.final_video_path = st.final_video_path := by
  unfold step_5_asset_generation at h
  split at h
  · exact Except.noConfusion h
  · split at h
    · split at h
      · cases Except.ok.inj h; rfl
      · exact Except.noConfusion h
    · exact Except.noConfusion h
    · exact Except.noConfusion h

/-- A successful step 7 leaves `assets` and `final_video_path` unchanged. -/
theorem step7_frame (thumbOk : Bool) (outDir : Str) (st st2 : PState)
    (h : step_7_thumbnail_generation thumbOk outDir st = .ok st2) :
    st2.assets = st.assets ∧ st2.final_video_path = st.final_video_path := by
  unfold step_7_thumbnail_generation at h
  split at h
  · exact Except.noConfusion h
  · split at h
    · split at h
      · cases Except.ok.inj h; exact ⟨rfl, rfl⟩
      · cases Except.ok.inj h; exact ⟨rfl, rfl⟩
    · exact Except.noConfusion h

/-- A successful step 8 whose input assets hold an empty segment list
returns the state unchanged. -/
theorem step8_empty (renderOk : Bool) (outDir uid : Str) (st st2 : PState) (a : Assets)
    (ha : st.assets = some a) (hz : a.video_segments = [])
    (h : (step_8_video_creation renderOk outDir uid st).2 = .ok st2) :
    st2 = st := by
  unfold step_8_video_creation at h
  rw [ha] at h
  simp only [hz] at h
  exact (Except.ok.inj h).symm

/-- A successful step 8 leaves `assets` unchanged. -/
theorem step8_assets (renderOk : Bool) (outDir uid : Str) (st st2 : PState)
    (h : (step_8_video_creation renderOk outDir uid st).2 = .ok st2) :
    st2.assets = st.assets := by
  unfold step_8_video_creation at h
  split at h
  · exact Except.noConfusion h
  · split at h
    · cases Except.ok.inj h; rfl
    · split at h
      · cases Except.ok.inj h; rfl
      · exact Except.noConfusion h

/-- Claim C2: when a run succeeds with zero produced video segments, step
8 records no final video (`final_video_path` stays absent) and the caller
reports failure — returning no path and leaving the plan untouched, in
particular never marking the lesson completed. -/
theorem C2_zero_segments_reports_failure (o : Oracles) (outBase : Str)
    (plan : List Lesson) (lesson : Lesson) (st : PState) (a : Assets)
    (hrun : (run_complete_pipeline o outBase lesson).2 = .ok st)
    (ha : st.assets = some a)
    (hz : a.video_segments = []) :
    st.final_video_path = none ∧
    generate_single_video o outBase plan lesson = (.failedNoOutput, none, plan) := by
  have hrun2 := hrun
  unfold run_complete_pipeline pipelineStages at hrun2
  obtain ⟨st1, h1, hrest⟩ := runSeq_cons_ok _ _ _ _ _ hrun2
  obtain ⟨st2, h2, hrest⟩ := runSeq_cons_ok _ _ _ _ _ hrest
  obtain ⟨st3, h3, hrest⟩ := runSeq_cons_ok _ _ _ _ _ hrest
  obtain ⟨st4, h4, hrest⟩ := runSeq_cons_ok _ _ _ _ _ hrest
  obtain ⟨st5, h5, hrest⟩ := runSeq_cons_ok _ _ _ _ _ hrest
  obtain ⟨st6, h6, hrest⟩ := runSeq_cons_ok _ _ _ _ _ hrest
  obtain ⟨st7, h7, hrest⟩ := runSeq_cons_ok _ _ _ _ _ hrest
  obtain ⟨st8, h8, hnil⟩ := runSeq_cons_ok _ _ _ _ _ hrest
  have hst : st = st8 := runSeq_nil_ok _ _ hnil
  have hfvp7 : st7.final_video_path = none := by
    rw [(step7_frame _ _ _ _ h7).2, (step6_frame _ _ _ h6).2, step5_fvp _ _ _ _ _ h5,
        (step4_frame _ _ _ h4).2, (step3_frame _ _ _ h3).2, (step2_frame _ _ _ h2).2,
        (step1_frame _ _ _ h1).2]
    rfl
  have ha7 : st7.assets = some a := by
    rw [← step8_assets _ _ _ _ _ h8, ← hst]
    exact ha
  have h88 : st8 = st7 := step8_empty _ _ _ _ _ a ha7 hz h8
  have hfvp : st.final_video_path = none := by
    rw [hst, h88]
    exact hfvp7
  refine ⟨hfvp, ?_⟩
  unfold generate_single_video
  rw [hrun]
  simp [hfvp]

/-- Witness for C2 at a concrete zero-segment run. -/
theorem C2_zero_segments_reports_failure_witness :
    ((run_complete_pipeline oracleC2 "output".data lessonB).2 = .ok runStateC2 ∧
      runStateC2.assets = some assetsC2 ∧ assetsC2.video_segments = []) ∧
    (runStateC2.final_video_path = none ∧
      generate_single_video oracleC2 "output".data planW lessonB
        = (.failedNoOutput, none, planW)) :=
  ⟨⟨rfl, rfl, rfl⟩,
    C2_zero_segments_reports_failure oracleC2 "output".data planW lessonB
      runStateC2 assetsC2 rfl rfl rfl⟩

/-- When every stage before some stage succeeds and that stage raises,
the run stops there: the trace covers exactly the entered stages and the
error comes out unchanged. -/
theorem runSeq_append_fail :
    ∀ (pre : List (Str × (PState → Except Err PState))) (st : PState) (tr : List Str)
      (st1 : PState) (n : Str) (f : PState → Except Err PState)
      (post : List (Str × (PState → Except Err PState))) (e : Err),
      runSeq pre st = (tr, .ok st1) → f st1 = .error e →
      runSeq (pre ++ (n, f) :: post) st = (tr ++ [n], .error e) := by
  intro pre
  induction pre with
  | nil =>
    intro st tr st1 n f post e hpre hfail
    simp only [runSeq] at hpre
    injection hpre with h1 h2
    injection h2 with h3
    subst h1
    subst h3
    simp only [List.nil_append, runSeq, hfail]
  | cons hd pre ih =>
    intro st tr st1 n f post e hpre hfail
    obtain ⟨m, g⟩ := hd
    simp only [List.cons_append, runSeq] at hpre ⊢
    cases hg : g st with
    | error e2 =>
      simp only [hg] at hpre
      injection hpre with h1 h2
      exact Except.noConfusion h2
    | ok stm =>
      simp only [hg, List.append_eq] at hpre ⊢
      injection hpre with h1 h2
      have hpre2 : runSeq pre stm = ((runSeq pre stm).1, .ok st1) := by
        rw [← h2]
      have hres := ih stm (runSeq pre stm).1 st1 n f post e hpre2 hfail
      rw [hres]
      subst h1
      simp

/-- Amended C5: any stage exception other than the absorbed per-segment
asset-generation failures and the absorbed thumbnail-generation failures
(e.g. a parse failure of a text response, a missing state key, a render
failure) propagates out of `run_complete_pipeline` uncaught, aborting the
remaining stages, and `generate_single_video` then marks the lesson
"failed" in the content plan. -/
theorem C5_stage_failure_aborts_and_marks_failed (o : Oracles) (outBase : Str)
    (plan : List Lesson) (lesson : Lesson)
    (pre post : List (Str × (PState → Except Err PState)))
    (n : Str) (f : PState → Except Err PState) (tr : List Str) (st1 : PState) (e : Err)
    (hsplit : pipelineStages o outBase lesson = pre ++ (n, f) :: post)
    (hpre : runSeq pre initState = (tr, .ok st1))
    (hfail : f st1 = .error e) :
    run_complete_pipeline o outBase lesson = (tr ++ [n], .error e) ∧
    generate_single_video o outBase plan lesson
      = (.failedError, none, update_lesson_status lesson.title "failed".data none plan) ∧
    (∀ k, ∀ hk : k < plan.length,
      (plan.get ⟨k, hk⟩).title = lesson.title →
      (∀ j, ∀ hj : j < plan.length, j < k → (plan.get ⟨j, hj⟩).title ≠ lesson.title) →
      ((generate_single_video o outBase plan lesson).2.2)[k]?
        = some (setLessonFields (plan.get ⟨k, hk⟩) "failed".data none)) := by
  have habort : run_complete_pipeline o outBase lesson = (tr ++ [n], .error e) := by
    unfold run_complete_pipeline
    rw [hsplit]
    exact runSeq_append_fail pre initState tr st1 n f post e hpre hfail
  have hgen : generate_single_video o outBase plan lesson
      = (.failedError, none, update_lesson_status lesson.title "failed".data none plan) := by
    unfold generate_single_video
    rw [habort]
  refine ⟨habort, hgen, ?_⟩
  intro k hk hmatch hbef
  rw [hgen]
  have hset := update_eq_set lesson.title "failed".data none plan k hk hmatch hbef
  simp only [hset]
  exact List.getElem?_set_self hk

/-- Witness for the amended C5: a parse failure in the very first stage
aborts the run after one stage and marks the lesson "failed". -/
theorem C5_stage_failure_aborts_and_marks_failed_witness :
    (pipelineStages oracleC5fail "output".data lessonB
      = [] ++ ("concept".data, step_1_concept_development oracleC5fail.conceptText)
          :: (pipelineStages oracleC5fail "output".data lessonB).tail ∧
     runSeq [] initState = ([], .ok initState) ∧
     step_1_concept_development oracleC5fail.conceptText initState = .error .parse) ∧
    (run_complete_pipeline oracleC5fail "output".data lessonB
      = ([] ++ ["concept".data], .error .parse) ∧
     generate_single_video oracleC5fail "output".data planW lessonB
      = (.failedError, none, update_lesson_status lessonB.title "failed".data none planW) ∧
    (∀ k, ∀ hk : k < planW.length,
      (planW.get ⟨k, hk⟩).title = lessonB.title →
      (∀ j, ∀ hj : j < planW.length, j < k → (planW.get ⟨j, hj⟩).title ≠ lessonB.title) →
      ((generate_single_video oracleC5fail "output".data planW lessonB).2.2)[k]?
        = some (setLessonFields (planW.get ⟨k, hk⟩) "failed".data none))) :=
  ⟨⟨rfl, rfl, rfl⟩,
    C5_stage_failure_aborts_and_marks_failed oracleC5fail "output".data planW lessonB
      [] ((pipelineStages oracleC5fail "output".data lessonB).tail)
      "concept".data (step_1_concept_development oracleC5fail.conceptText)
      [] initState .parse rfl rfl rfl⟩

/-- Counterexample to C5 as stated: a failure inside the thumbnail stage
(its generation attempt raises, `thumbOk = false`) is not a per-segment
asset-generation failure, yet it does not propagate: all eight stages run,
the run succeeds with no recorded thumbnail, and the caller marks the
lesson "completed", not "failed". -/
theorem C5_counterexample_thumbnail_failure_absorbed :
    oracleThumbFail.thumbOk = false ∧
    (run_complete_pipeline oracleThumbFail "output".data lessonB).1.length = 8 ∧
    (run_complete_pipeline oracleThumbFail "output".data lessonB).2 = .ok runStateThumbFail ∧
    runStateThumbFail.thumbnail_path = none ∧
    (generate_single_video oracleThumbFail "output".data planW lessonB).1 = .completed ∧
    ((generate_single_video oracleThumbFail "output".data planW lessonB).2.2.map
        Lesson.status)[1]? = some "completed".data ∧
    "completed".data ≠ "failed".data := by
  refine ⟨rfl, rfl, rfl, rfl, rfl, rfl, ?_⟩
  decide

/-! ## C4: fence-wrapped responses parse identically

The plan: `stripFences (wrapFence c)` differs from `stripFences c` only
in whitespace at the ends, which `jsonParse` ignores, so the parsed value
is the same.  The work is character-level reasoning about the Python
`replace` scan. -/

/-- Membership in a prefix decision is settled inside the first part when
it is long enough. -/
theorem isPrefixOf_append_of_le :
    ∀ (pat s t : Str), pat.length ≤ s.length →
      pat.isPrefixOf (s ++ t) = pat.isPrefixOf s := by
  intro pat
  induction pat with
  | nil => intro s t hle; simp [List.isPrefixOf]
  | cons p ps ih =>
    intro s t hle
    cases s with
    | nil => simp at hle
    | cons a s2 =>
      simp only [List.cons_append, List.isPrefixOf, List.append_eq]
      rw [ih s2 t (by simpa using hle)]

/-- A pattern longer than the text is never a prefix of it. -/
theorem isPrefixOf_false_of_short :
    ∀ (pat s : Str), s.length < pat.length → pat.isPrefixOf s = false := by
  intro pat
  induction pat with
  | nil => intro s h; simp at h
  | cons p ps ih =>
    intro s h
    cases s with
    | nil => rfl
    | cons a s2 =>
      simp only [List.isPrefixOf]
      rw [ih s2 (by simpa using h)]
      simp

/-- Every list is a prefix of itself extended. -/
theorem isPrefixOf_self_append : ∀ (p t : Str), p.isPrefixOf (p ++ t) = true := by
  intro p
  induction p with
  | nil => intro t; simp [List.isPrefixOf]
  | cons a p2 ih => intro t; simp [List.isPrefixOf, ih]

/-- The scan result does not depend on the fuel once it covers the input
length (for a non-empty pattern). -/
theorem replaceAllAux_congr (pat rep : Str) (hpat : pat ≠ []) :
    ∀ (f1 f2 : Nat) (s : Str), s.length ≤ f1 → s.length ≤ f2 →
      replaceAllAux pat rep f1 s = replaceAllAux pat rep f2 s := by
  intro f1
  induction f1 with
  | zero =>
    intro f2 s h1 h2
    have hs : s = [] := List.eq_nil_of_length_eq_zero (Nat.le_zero.mp h1)
    subst hs
    cases f2 <;> rfl
  | succ f1 ih =>
    intro f2 s h1 h2
    cases s with
    | nil => cases f2 <;> rfl
    | cons a s2 =>
      cases f2 with
      | zero => simp at h2
      | succ f2 =>
        have hplen : 1 ≤ pat.length := by
          cases pat with
          | nil => exact absurd rfl hpat
          | cons q qs => simp
        simp only [replaceAllAux]
        by_cases h : pat.isPrefixOf (a :: s2) = true
        · rw [h]
          simp only [if_true]
          congr 1
          apply ih
          · simp only [List.length_drop, List.length_cons]
            simp only [List.length_cons] at h1
            omega
          · simp only [List.length_drop, List.length_cons]
            simp only [List.length_cons] at h2
            omega
        · rw [Bool.of_not_eq_true h]
          simp only [Bool.false_eq_true, if_false]
          congr 1
          apply ih
          · simp only [List.length_cons] at h1; omega
          · simp only [List.length_cons] at h2; omega

/-- Scan equation at a match: emit the replacement and resume after the
matched occurrence. -/
theorem replaceAll_at_match (pat rep s : Str) (hpat : pat ≠ [])
    (h : pat.isPrefixOf s = true) :
    replaceAll pat rep s = rep ++ replaceAll pat rep (s.drop pat.length) := by
  cases s with
  | nil =>
    cases pat with
    | nil => exact absurd rfl hpat
    | cons p ps => simp [List.isPrefixOf] at h
  | cons a s2 =>
    have hplen : 1 ≤ pat.length := by
      cases pat with
      | nil => exact absurd rfl hpat
      | cons q qs => simp
    unfold replaceAll
    simp only [List.length_cons, replaceAllAux, h, if_true]
    congr 1
    apply replaceAllAux_congr pat rep hpat
    · simp only [List.length_drop, List.length_cons]
      omega
    · simp only [List.length_drop, List.length_cons]
      omega

/-- Scan equation at a non-match: keep the head character. -/
theorem replaceAll_cons_of_not (pat rep : Str) (a : Char) (s : Str)
    (h : pat.isPrefixOf (a :: s) = false) :
    replaceAll pat rep (a :: s) = a :: replaceAll pat rep s := by
  unfold replaceAll
  simp only [List.length_cons, replaceAllAux, h]
  simp

/-- A text shorter than the pattern is left unchanged. -/
theorem replaceAll_short (pat rep : Str) :
    ∀ (s : Str), s.length < pat.length → replaceAll pat rep s = s := by
  intro s
  induction s with
  | nil => intro _; rfl
  | cons a s2 ih =>
    intro h
    rw [replaceAll_cons_of_not pat rep a s2 (isPrefixOf_false_of_short pat (a :: s2) h)]
    rw [ih (by simp only [List.length_cons] at h; omega)]

/-- A whitespace-free pattern cannot match a window that reaches a
whitespace run: when the text part before the run is shorter than the
pattern, there is no match at its start. -/
theorem notPrefix_pad (pat : Str) (hpat : ∀ ch ∈ pat, isWS ch = false)
    (w : Str) (hw : ∀ ch ∈ w, isWS ch = true) (hw0 : w ≠ []) :
    ∀ (x y : Str), x.length < pat.length → pat.isPrefixOf (x ++ (w ++ y)) = false := by
  intro x
  induction x generalizing pat with
  | nil =>
    intro y hlen
    cases pat with
    | nil => simp at hlen
    | cons p ps =>
      cases w with
      | nil => exact absurd rfl hw0
      | cons wc w2 =>
        simp only [List.nil_append, List.cons_append, List.isPrefixOf]
        have hpws : isWS p = false := hpat p (List.mem_cons_self p ps)
        have hwcws : isWS wc = true := hw wc (List.mem_cons_self wc w2)
        have : (p == wc) = false := by
          apply beq_eq_false_iff_ne.mpr
          intro he
          rw [he, hwcws] at hpws
          exact Bool.noConfusion hpws
        rw [this]
        simp
  | cons a x2 ih =>
    intro y hlen
    cases pat with
    | nil => simp at hlen
    | cons p ps =>
      simp only [List.cons_append, List.isPrefixOf, List.append_eq]
      have hrec := ih ps (fun ch hch => hpat ch (List.mem_cons_of_mem p hch)) y
        (by simp only [List.length_cons] at hlen; omega)
      rw [hrec]
      simp

/-- A whitespace run in front of the text passes through the scan
unchanged. -/
theorem replaceAll_ws_head (pat : Str) (hpat : ∀ ch ∈ pat, isWS ch = false)
    (hpat0 : pat ≠ []) :
    ∀ (w : Str), (∀ ch ∈ w, isWS ch = true) →
      ∀ y, replaceAll pat [] (w ++ y) = w ++ replaceAll pat [] y := by
  intro w
  induction w with
  | nil => intro _ y; simp
  | cons wc w2 ih =>
    intro hw y
    obtain ⟨p, ps, rfl⟩ := List.exists_cons_of_ne_nil hpat0
    have hnp : (p :: ps).isPrefixOf (wc :: (w2 ++ y)) = false := by
      simp only [List.isPrefixOf]
      have hpws : isWS p = false := hpat p (List.mem_cons_self p ps)
      have hwcws : isWS wc = true := hw wc (List.mem_cons_self wc w2)
      have : (p == wc) = false := by
        apply beq_eq_false_iff_ne.mpr
        intro he
        rw [he, hwcws] at hpws
        exact Bool.noConfusion hpws
      rw [this]
      simp
    rw [List.cons_append, replaceAll_cons_of_not _ _ _ _ hnp,
        ih (fun ch hch => hw ch (List.mem_cons_of_mem wc hch)) y]
    rfl

/-- A non-empty whitespace run splits the scan: matches never straddle
it, so the text on each side is rewritten independently. -/
theorem replaceAll_ws_split (pat : Str) (hpat : ∀ ch ∈ pat, isWS ch = false)
    (hpat0 : pat ≠ []) (w : Str) (hw : ∀ ch ∈ w, isWS ch = true) (hw0 : w ≠ []) :
    ∀ (N : Nat) (x y : Str), x.length ≤ N →
      replaceAll pat [] (x ++ (w ++ y))
        = replaceAll pat [] x ++ (w ++ replaceAll pat [] y) := by
  intro N
  induction N with
  | zero =>
    intro x y hx
    have hx0 : x = [] := List.eq_nil_of_length_eq_zero (Nat.le_zero.mp hx)
    subst hx0
    simp only [List.nil_append]
    exact replaceAll_ws_head pat hpat hpat0 w hw y
  | succ N ih =>
    intro x y hx
    cases x with
    | nil =>
      simp only [List.nil_append]
      exact replaceAll_ws_head pat hpat hpat0 w hw y
    | cons a x2 =>
      have hplen : 1 ≤ pat.length := by
        cases pat with
        | nil => exact absurd rfl hpat0
        | cons q qs => simp
      by_cases hlen : pat.length ≤ (a :: x2).length
      · have heq : pat.isPrefixOf ((a :: x2) ++ (w ++ y)) = pat.isPrefixOf (a :: x2) :=
          isPrefixOf_append_of_le pat (a :: x2) (w ++ y) hlen
        by_cases hp : pat.isPrefixOf (a :: x2) = true
        · rw [replaceAll_at_match pat [] _ hpat0 (heq.trans hp),
              replaceAll_at_match pat [] _ hpat0 hp]
          rw [List.drop_append_of_le_length hlen]
          have hrec := ih ((a :: x2).drop pat.length) y
            (by simp only [List.length_drop, List.length_cons]
                simp only [List.length_cons] at hx
                omega)
          rw [hrec]
          simp
        · have hp2 : pat.isPrefixOf (a :: x2) = false := Bool.of_not_eq_true hp
          rw [List.cons_append, replaceAll_cons_of_not _ _ _ _ (by
                rw [← List.cons_append]; exact heq.trans hp2),
              replaceAll_cons_of_not _ _ _ _ hp2]
          have hrec := ih x2 y
            (by simp only [List.length_cons] at hx; omega)
          rw [hrec]
          simp
      · have hshort : (a :: x2).length < pat.length := by omega
        have hnp : pat.isPrefixOf ((a :: x2) ++ (w ++ y)) = false :=
          notPrefix_pad pat hpat w hw hw0 (a :: x2) y hshort
        rw [List.cons_append] at hnp
        rw [List.cons_append, replaceAll_cons_of_not _ _ _ _ hnp,
            replaceAll_cons_of_not _ _ _ _ (isPrefixOf_false_of_short pat (a :: x2) hshort)]
        have hrec := ih x2 y (by simp only [List.length_cons] at hx; omega)
        rw [hrec]
        simp

/-- The seven-character fence-language pattern never matches a window
reaching into the three-backtick trailer: its seventh character is a
letter, the trailer has only backticks. -/
theorem notPrefix7_short (x : Str) (hx : x.length < 7) :
    ("```json".data).isPrefixOf (x ++ "```".data) = false := by
  by_contra hne
  have hp : ("```json".data).isPrefixOf (x ++ "```".data) = true := by
    cases hb : ("```json".data).isPrefixOf (x ++ "```".data)
    · exact absurd hb hne
    · rfl
  obtain ⟨t, ht⟩ := List.isPrefixOf_iff_prefix.mp hp
  have hlen : 4 ≤ x.length := by
    have hl := congrArg List.length ht
    simp [List.length_append] at hl
    omega
  have h6l : ("```json".data ++ t)[6]? = some 'n' := by
    rw [List.getElem?_append_left (by norm_num : (6 : Nat) < ("```json".data).length)]
    rfl
  rw [ht] at h6l
  have h6r : (x ++ "```".data)[6]? = ("```".data)[6 - x.length]? :=
    List.getElem?_append_right (by omega)
  rw [h6l] at h6r
  have hx456 : x.length = 4 ∨ x.length = 5 ∨ x.length = 6 := by omega
  rcases hx456 with h | h | h <;> rw [h] at h6r <;> exact absurd h6r (by decide)

/-- Appending the closing fence does not disturb the first replace: no
occurrence of the fence-language pattern can reach into the trailer. -/
theorem replaceAll7_trailer :
    ∀ (N : Nat) (s : Str), s.length ≤ N →
      replaceAll "```json".data [] (s ++ "```".data)
        = replaceAll "```json".data [] s ++ "```".data := by
  intro N
  induction N with
  | zero =>
    intro s hs
    have hs0 : s = [] := List.eq_nil_of_length_eq_zero (Nat.le_zero.mp hs)
    subst hs0
    rfl
  | succ N ih =>
    intro s hs
    cases s with
    | nil => rfl
    | cons a s2 =>
      by_cases hlen : ("```json".data).length ≤ (a :: s2).length
      · have heq := isPrefixOf_append_of_le "```json".data (a :: s2) "```".data hlen
        by_cases hp : ("```json".data).isPrefixOf (a :: s2) = true
        · rw [replaceAll_at_match _ [] _ (by decide) (heq.trans hp),
              replaceAll_at_match _ [] _ (by decide) hp,
              List.drop_append_of_le_length hlen]
          have hrec := ih ((a :: s2).drop ("```json".data).length)
            (by simp only [List.length_drop, List.length_cons]
                simp only [List.length_cons] at hs
                have : ("```json".data).length = 7 := rfl
                omega)
          rw [hrec]
          simp
        · have hp2 := Bool.of_not_eq_true hp
          rw [List.cons_append,
              replaceAll_cons_of_not _ _ _ _ (by rw [← List.cons_append]; exact heq.trans hp2),
              replaceAll_cons_of_not _ _ _ _ hp2]
          have hrec := ih s2 (by simp only [List.length_cons] at hs; omega)
          rw [hrec]
          rfl
      · have hshort : (a :: s2).length < ("```json".data).length := by omega
        have hnp := notPrefix7_short (a :: s2) (by
          have : ("```json".data).length = 7 := rfl
          omega)
        rw [List.cons_append] at hnp
        rw [List.cons_append, replaceAll_cons_of_not _ _ _ _ hnp,
            replaceAll_cons_of_not _ _ _ _
              (isPrefixOf_false_of_short "```json".data (a :: s2) hshort)]
        have hrec := ih s2 (by simp only [List.length_cons] at hs; omega)
        rw [hrec]
        rfl

/-- Appending the closing fence to the second replace is absorbed: the
trailer either merges with a trailing backtick run, in which case the
leftover run length is unchanged modulo three, or is removed whole. -/
theorem replaceAll3_trailer :
    ∀ (N : Nat) (s : Str), s.length ≤ N →
      replaceAll "```".data [] (s ++ "```".data) = replaceAll "```".data [] s := by
  intro N
  induction N with
  | zero =>
    intro s hs
    have hs0 : s = [] := List.eq_nil_of_length_eq_zero (Nat.le_zero.mp hs)
    subst hs0
    rfl
  | succ N ih =>
    intro s hs
    cases s with
    | nil => rfl
    | cons a s2 =>
      by_cases hlen : ("```".data).length ≤ (a :: s2).length
      · have heq := isPrefixOf_append_of_le "```".data (a :: s2) "```".data hlen
        by_cases hp : ("```".data).isPrefixOf (a :: s2) = true
        · rw [replaceAll_at_match _ [] _ (by decide) (heq.trans hp),
              replaceAll_at_match _ [] _ (by decide) hp,
              List.drop_append_of_le_length hlen]
          have hrec := ih ((a :: s2).drop ("```".data).length)
            (by simp only [List.length_drop, List.length_cons]
                simp only [List.length_cons] at hs
                have : ("```".data).length = 3 := rfl
                omega)
          rw [hrec]
        · have hp2 := Bool.of_not_eq_true hp
          rw [List.cons_append,
              replaceAll_cons_of_not _ _ _ _ (by rw [← List.cons_append]; exact heq.trans hp2),
              replaceAll_cons_of_not _ _ _ _ hp2]
          have hrec := ih s2 (by simp only [List.length_cons] at hs; omega)
          rw [hrec]
      · -- the text part is one or two characters
        have hs2 : s2.length < 2 := by
          simp at hlen
          omega
        cases s2 with
        | nil =>
          by_cases hab : ("```".data).isPrefixOf (a :: "```".data) = true
          · have ha : '`' = a := by simpa [List.isPrefixOf] using hab
            subst ha
            rfl
          · rw [show ([a] : Str) ++ "```".data = a :: "```".data from rfl,
                replaceAll_cons_of_not _ _ _ _ (Bool.of_not_eq_true hab),
                replaceAll_short "```".data [] [a] (by simp)]
            rfl
        | cons b s3 =>
          have hs3 : s3 = [] := by
            cases s3 with
            | nil => rfl
            | cons c s4 =>
              simp only [List.length_cons] at hs2
              omega
          subst hs3
          by_cases hab : ("```".data).isPrefixOf (a :: b :: "```".data) = true
          · have hd : '`' = a ∧ '`' = b := by simpa [List.isPrefixOf] using hab
            obtain ⟨ha, hb⟩ := hd
            subst ha
            subst hb
            rfl
          · rw [show ([a, b] : Str) ++ "```".data = a :: b :: "```".data from rfl,
                replaceAll_cons_of_not _ _ _ _ (Bool.of_not_eq_true hab),
                show (b :: "```".data : Str) = ([b] : Str) ++ "```".data from rfl,
                ih [b] (by simp only [List.length_cons] at hs; simp; omega),
                replaceAll_cons_of_not _ _ a [b]
                  (isPrefixOf_false_of_short "```".data [a, b] (by simp))]

/-- Dropping whitespace passes over a whitespace run. -/
theorem dropWhile_ws_append (w : Str) (hw : ∀ ch ∈ w, isWS ch = true) (l : Str) :
    List.dropWhile isWS (w ++ l) = List.dropWhile isWS l := by
  induction w with
  | nil => rfl
  | cons wc w2 ih =>
    rw [List.cons_append, List.dropWhile_cons_of_pos (hw wc (List.mem_cons_self wc w2))]
    exact ih (fun ch hch => hw ch (List.mem_cons_of_mem wc hch))

/-- A leading whitespace run does not change the stripped text. -/
theorem pyStrip_ws_left (w : Str) (hw : ∀ ch ∈ w, isWS ch = true) (x : Str) :
    pyStrip (w ++ x) = pyStrip x := by
  unfold pyStrip
  rw [dropWhile_ws_append w hw x]

/-- An all-whitespace text strips to nothing. -/
theorem pyStrip_all_ws (s : Str) (hs : ∀ ch ∈ s, isWS ch = true) : pyStrip s = [] := by
  have hdrop : List.dropWhile isWS s = [] := by
    induction s with
    | nil => rfl
    | cons a s2 ih =>
      rw [List.dropWhile_cons_of_pos (hs a (List.mem_cons_self a s2))]
      exact ih (fun ch hch => hs ch (List.mem_cons_of_mem a hch))
  unfold pyStrip
  rw [hdrop]
  rfl

/-- When the text has a non-whitespace character, the leading strip stops
inside it and the appended tail is untouched. -/
theorem dropWhile_ws_append_of_mem (x : Str) (hx : ∃ ch ∈ x, isWS ch = false) (l : Str) :
    List.dropWhile isWS (x ++ l) = List.dropWhile isWS x ++ l := by
  induction x with
  | nil =>
    obtain ⟨ch, hch, _⟩ := hx
    exact absurd hch (List.not_mem_nil ch)
  | cons a x2 ih =>
    by_cases ha : isWS a = true
    · rw [List.cons_append, List.dropWhile_cons_of_pos ha, List.dropWhile_cons_of_pos ha]
      apply ih
      obtain ⟨ch, hch, hchf⟩ := hx
      rcases List.mem_cons.mp hch with rfl | hch2
      · rw [ha] at hchf; exact Bool.noConfusion hchf
      · exact ⟨ch, hch2, hchf⟩
    · have ha2 : ¬ isWS a = true := ha
      rw [List.cons_append, List.dropWhile_cons_of_neg ha2, List.dropWhile_cons_of_neg ha2]
      rfl

/-- A trailing whitespace run does not change the stripped text. -/
theorem pyStrip_ws_right (w : Str) (hw : ∀ ch ∈ w, isWS ch = true) (x : Str) :
    pyStrip (x ++ w) = pyStrip x := by
  by_cases hall : ∀ ch ∈ x, isWS ch = true
  · rw [pyStrip_all_ws x hall, pyStrip_all_ws (x ++ w)]
    intro ch hch
    rcases List.mem_append.mp hch with h | h
    · exact hall ch h
    · exact hw ch h
  · push_neg at hall
    obtain ⟨c0, hc0, hc0f⟩ := hall
    have hx : ∃ ch ∈ x, isWS ch = false := ⟨c0, hc0, by
      cases hb : isWS c0
      · rfl
      · exact absurd hb hc0f⟩
    unfold pyStrip
    rw [dropWhile_ws_append_of_mem x hx w, List.reverse_append,
        dropWhile_ws_append w.reverse (fun ch hch => hw ch (List.mem_reverse.mp hch))]

/-- Every text splits as leading whitespace, its stripped core, and
trailing whitespace. -/
theorem pyStrip_decomp (c : Str) :
    ∃ wsL wsR, (∀ ch ∈ wsL, isWS ch = true) ∧ (∀ ch ∈ wsR, isWS ch = true) ∧
      c = wsL ++ (pyStrip c ++ wsR) := by
  refine ⟨c.takeWhile isWS, ((List.dropWhile isWS c).reverse.takeWhile isWS).reverse,
    fun ch hch => List.mem_takeWhile_imp hch, ?_, ?_⟩
  · intro ch hch
    exact List.mem_takeWhile_imp (List.mem_reverse.mp hch)
  · conv_lhs => rw [← List.takeWhile_append_dropWhile isWS c]
    congr 1
    unfold pyStrip
    conv_lhs => rw [show List.dropWhile isWS c
      = ((List.dropWhile isWS c).reverse.takeWhile isWS
          ++ (List.dropWhile isWS c).reverse.dropWhile isWS).reverse from by
        rw [List.takeWhile_append_dropWhile, List.reverse_reverse]]
    rw [List.reverse_append]

/-- The wrapped response has non-whitespace characters at both ends, so
the initial strip leaves it unchanged. -/
theorem pyStrip_wrap (c : Str) : pyStrip (wrapFence c) = wrapFence c := by
  unfold pyStrip
  have h1 : List.dropWhile isWS (wrapFence c) = wrapFence c := by
    have hshape : wrapFence c = '`' :: ("``json".data ++ (c ++ "```".data)) := by
      unfold wrapFence
      rw [List.append_assoc]
      rfl
    rw [hshape, List.dropWhile_cons_of_neg (by decide)]
  rw [h1]
  have h2 : (wrapFence c).reverse = '`' :: ("``".data ++ ("```json".data ++ c).reverse) := by
    unfold wrapFence
    rw [List.reverse_append]
    rfl
  rw [h2, List.dropWhile_cons_of_neg (by decide), ← h2, List.reverse_reverse]

/-- `jsonParse` depends only on the stripped text. -/
theorem jsonParse_congr (s1 s2 : Str) (h : pyStrip s1 = pyStrip s2) :
    jsonParse s1 = jsonParse s2 := by
  unfold jsonParse
  rw [h]

/-- The stage parse of a fence-wrapped response equals the stage parse of
the unwrapped response: the fence stripping collapses the wrapper to the
same text up to whitespace at the ends, which the JSON parse ignores. -/
theorem stageParse_wrapFence (c : Str) : stageParse (wrapFence c) = stageParse c := by
  obtain ⟨wsL, wsR, hL, hR, hdecomp⟩ := pyStrip_decomp c
  have hpat7ws : ∀ ch ∈ "```json".data, isWS ch = false := by decide
  have hpat3ws : ∀ ch ∈ "```".data, isWS ch = false := by decide
  have hsplit7 : replaceAll "```json".data [] (pyStrip c ++ wsR)
      = replaceAll "```json".data [] (pyStrip c) ++ wsR := by
    by_cases hR0 : wsR = []
    · subst hR0
      simp
    · have h := replaceAll_ws_split "```json".data hpat7ws (by decide) wsR hR hR0
        (pyStrip c).length (pyStrip c) [] le_rfl
      rw [show replaceAll "```json".data [] ([] : Str) = [] from rfl] at h
      simp only [List.append_nil] at h
      exact h
  have hA : replaceAll "```json".data [] c
      = wsL ++ (replaceAll "```json".data [] (pyStrip c) ++ wsR) := by
    conv_lhs => rw [hdecomp]
    rw [← hsplit7]
    exact replaceAll_ws_head _ hpat7ws (by decide) wsL hL (pyStrip c ++ wsR)
  have hL1 : stripFences (wrapFence c)
      = replaceAll "```".data [] ((replaceAll "```json".data [] c) ++ "```".data) := by
    unfold stripFences
    rw [pyStrip_wrap]
    congr 1
    have hw : wrapFence c = "```json".data ++ (c ++ "```".data) := by
      unfold wrapFence
      rw [List.append_assoc]
    rw [hw, replaceAll_at_match _ [] _ (by decide) (isPrefixOf_self_append _ _),
        List.nil_append, List.drop_left]
    exact replaceAll7_trailer c.length c le_rfl
  have hRHS : stripFences c
      = replaceAll "```".data [] (replaceAll "```json".data [] (pyStrip c)) := rfl
  by_cases hR0 : wsR = []
  · subst hR0
    rw [List.append_nil] at hA
    have hL2 : stripFences (wrapFence c)
        = wsL ++ replaceAll "```".data []
            (replaceAll "```json".data [] (pyStrip c)) := by
      rw [hL1, hA, List.append_assoc,
          replaceAll_ws_head _ hpat3ws (by decide) wsL hL,
          replaceAll3_trailer (replaceAll "```json".data [] (pyStrip c)).length _ le_rfl]
    unfold stageParse
    rw [hL2, hRHS]
    apply jsonParse_congr
    exact pyStrip_ws_left wsL hL _
  · have hL2 : stripFences (wrapFence c)
        = wsL ++ (replaceAll "```".data []
            (replaceAll "```json".data [] (pyStrip c)) ++ wsR) := by
      rw [hL1, hA, List.append_assoc,
          replaceAll_ws_head _ hpat3ws (by decide) wsL hL,
          List.append_assoc]
      congr 1
      have h := replaceAll_ws_split "```".data hpat3ws (by decide) wsR hR hR0
        (replaceAll "```json".data [] (pyStrip c)).length
        (replaceAll "```json".data [] (pyStrip c)) "```".data le_rfl
      rw [h]
      congr 1
      rw [show replaceAll "```".data [] ("```".data) = [] from rfl, List.append_nil]
    unfold stageParse
    rw [hL2, hRHS]
    apply jsonParse_congr
    rw [pyStrip_ws_left wsL hL _]
    exact pyStrip_ws_right wsR hR _

/-- Claim C4: a text response whose content parses as the expected
structured object parses to the same value when wrapped in enclosing
code-fence markers: the fence-stripping stage parse of the wrapped
response yields the value of the unwrapped response. -/
theorem C4_fence_wrapped_parses_identically (c : Str) (v : Json)
    (h : stageParse c = some v) : stageParse (wrapFence c) = some v := by
  rw [stageParse_wrapFence]
  exact h

/-- Witness for C4 on a concrete object with surrounding whitespace. -/
theorem C4_fence_wrapped_parses_identically_witness :
    stageParse " \x7b\"a\": 1\x7d ".data
      = some (Json.obj [("a".data, Json.num 1)]) ∧
    stageParse (wrapFence " \x7b\"a\": 1\x7d ".data)
      = some (Json.obj [("a".data, Json.num 1)]) :=
  ⟨rfl, C4_fence_wrapped_parses_identically " \x7b\"a\": 1\x7d ".data
    (Json.obj [("a".data, Json.num 1)]) rfl⟩
